import Mathlib

/-!
Warpeed access gate: session and verification-code lifecycle.

A shallow embedding of `auth.js` and `auth-check.js`.

* `localStorage` and `sessionStorage` are total maps from keys to optional
  strings (`Store`).
* The values `JSON.parse` produces are the type `JVal`; numbers are integer
  millisecond timestamps.
* The JavaScript built-ins the code calls but does not define (`JSON.parse`,
  `JSON.stringify`, the numeric coercion of strings and objects) are the
  fields of a `Builtins` record that every function takes as an argument.
* A handler runs to completion on the event loop; `Date.now()` is the argument
  `now` of the handler. `checkSessionExpiry` blocks in `confirm`, so it takes
  the reading before and the reading after the dialog.
* The DOM, the console and the mail service are outside the program: what the
  handlers do to them is appended to the `log` of the state as `Effect`s.
-/

namespace Warpeed

/-! ## JavaScript values and built-ins -/

/-- The values `JSON.parse` returns, and `undefined` for a missing property. -/
inductive JVal where
  | undefined : JVal
  | null : JVal
  | bool (b : Bool) : JVal
  | num (n : Int) : JVal
  | str (s : String) : JVal
  | arr (items : List JVal) : JVal
  | obj (fields : List (String × JVal)) : JVal

/-- Built-ins of the JavaScript runtime that the program calls. `jsonParse`
returns `none` where `JSON.parse` throws. `coerce` is `ToNumber` on strings,
arrays and objects, `none` standing for `NaN`. -/
structure Builtins where
  jsonParse : String → Option JVal
  jsonStringify : JVal → String
  coerce : JVal → Option Int

/-- Property read `v.key`: `none` where the read throws a `TypeError` (on
`null` and `undefined`), `JVal.undefined` where the property is missing. -/
def JVal.prop (v : JVal) (key : String) : Option JVal :=
  match v with
  | .undefined => none
  | .null => none
  | .obj fields =>
    match fields.lookup key with
    | some x => some x
    | none => some .undefined
  | _ => some .undefined

/-- Assignment `v.key = x` on an object: the property keeps its place when it
exists and is added at the end otherwise. -/
def setField (fields : List (String × JVal)) (key : String) (x : JVal) :
    List (String × JVal) :=
  match fields with
  | [] => [(key, x)]
  | (k, y) :: rest => if k = key then (k, x) :: rest else (k, y) :: setField rest key x

/-- The abstract operation `ToNumber`; `none` is `NaN`. -/
def toNumber (B : Builtins) (v : JVal) : Option Int :=
  match v with
  | .undefined => none
  | .null => some 0
  | .bool true => some 1
  | .bool false => some 0
  | .num n => some n
  | other => B.coerce other

/-- The comparison `v < n` of a value with a number: false when `v` converts
to `NaN`. -/
def jsLt (B : Builtins) (v : JVal) (n : Int) : Bool :=
  match toNumber B v with
  | some m => decide (m < n)
  | none => false

/-- The test `v === true`. -/
def strictlyTrue (v : JVal) : Bool :=
  match v with
  | .bool true => true
  | _ => false

/-! ## Storage -/

/-- A storage area: the string held under each key, if any. -/
abbrev Store := String → Option String

/-- The call `storage.getItem(key)`; `none` is `null`. -/
def Store.getItem (s : Store) (key : String) : Option String := s key

/-- The call `storage.setItem(key, value)`. -/
def Store.setItem (s : Store) (key value : String) : Store :=
  fun k => if k = key then some value else s k

/-- The call `storage.removeItem(key)`. -/
def Store.removeItem (s : Store) (key : String) : Store :=
  fun k => if k = key then none else s k

/-- Truthiness of the result of `getItem`: `null` and the empty string are
falsy. -/
def truthy (x : Option String) : Bool :=
  match x with
  | some t => decide (t ≠ "")
  | none => false

/-- The expression `x || dflt` on the result of `getItem`. -/
def orElse (x : Option String) (dflt : String) : String :=
  match x with
  | some t => if t = "" then dflt else t
  | none => dflt

/-! ## The gatekeeper: `isAuthenticated` (identical in both files) -/

/-- The function `isAuthenticated`, returning the storage afterwards and the
result. The `try` block catches the failure of `JSON.parse` and of the
property reads. -/
def isAuthenticated (B : Builtins) (ls : Store) (now : Int) : Store × Bool :=
  match ls.getItem "warpeedSession" with
  | none => (ls, false)
  | some session =>
    if session = "" then (ls, false)
    else
      match B.jsonParse session with
      | none => (ls, false)
      | some sessionData =>
        match sessionData.prop "expiresAt" with
        | none => (ls, false)
        | some expiresAt =>
          if jsLt B expiresAt now then (ls.removeItem "warpeedSession", false)
          else
            match sessionData.prop "authenticated" with
            | none => (ls, false)
            | some a => (ls, strictlyTrue a)

/-! ## Configuration (`AUTH_CONFIG`) -/

/-- The constant `AUTH_CONFIG.emailJsServiceId`. -/
def emailJsServiceId : String := "service_2bdmaks"

/-- The constant `AUTH_CONFIG.emailJsTemplateId`. -/
def emailJsTemplateId : String := "template_qd1we8t"

/-- The constant `AUTH_CONFIG.emailJsPublicKey`. -/
def emailJsPublicKey : String := "Uoq5AonGyDGvl5kvE"

/-- The constant `AUTH_CONFIG.sessionDuration`, 24 hours in milliseconds. -/
def sessionDuration : Int := 24 * 60 * 60 * 1000

/-- The constant `AUTH_CONFIG.codeExpiration`, 15 minutes in milliseconds. -/
def codeExpiration : Int := 15 * 60 * 1000

/-- The constant `AUTH_CONFIG.creatorMasterCode`. -/
def creatorMasterCode : String := "WARPEED2025CREATOR"

/-- The constant `AUTH_CONFIG.creatorEmail`. -/
def creatorEmail : String := "heinz@warpeed.space"

/-! ## Strings: `trim`, the e-mail pattern, `parseInt` -/

/-- White space and line terminators of ECMAScript: what `trim` strips and
what the class `\s` matches. -/
def isJsSpace (c : Char) : Bool :=
  let n := c.toNat
  n = 0x09 || n = 0x0A || n = 0x0B || n = 0x0C || n = 0x0D || n = 0x20 || n = 0xA0 ||
  n = 0x1680 || (0x2000 ≤ n && n ≤ 0x200A) || n = 0x2028 || n = 0x2029 || n = 0x202F ||
  n = 0x205F || n = 0x3000 || n = 0xFEFF

/-- The method `String.prototype.trim`. -/
def jsTrim (s : String) : String :=
  String.mk ((((s.toList.dropWhile isJsSpace).reverse).dropWhile isJsSpace).reverse)

/-- The pieces the e-mail pattern is made of: a literal character, and
`[^\s@]+`. -/
inductive Atom where
  | lit (c : Char) : Atom
  | run : Atom

/-- The class `[^\s@]`. -/
def inClass (c : Char) : Bool := !(isJsSpace c) && c != '@'

/-- One or more characters of the class `[^\s@]`, then the continuation `k`
on what is left (every split is tried). -/
def matchRun (k : List Char → Bool) : List Char → Bool
  | [] => false
  | c :: cs => inClass c && (k cs || matchRun k cs)

/-- Matching of a sequence of atoms anchored at both ends (`^ ... $`). -/
def matchAtoms : List Atom → List Char → Bool
  | [], cs => cs.isEmpty
  | Atom.lit c :: rest, cs =>
    match cs with
    | [] => false
    | x :: cs1 => x == c && matchAtoms rest cs1
  | Atom.run :: rest, cs => matchRun (matchAtoms rest) cs

/-- The pattern `/^[^\s@]+@[^\s@]+\.[^\s@]+$/`. -/
def emailRegex : List Atom := [Atom.run, Atom.lit '@', Atom.run, Atom.lit '.', Atom.run]

/-- The call `emailRegex.test(email)`. -/
def emailRegexTest (email : String) : Bool := matchAtoms emailRegex email.toList

/-- The value of a digit in radix 10 or 16, if the character is one. -/
def digitValue (radix : Nat) (c : Char) : Option Nat :=
  let n := c.toNat
  if 48 ≤ n ∧ n ≤ 57 then some (n - 48)
  else if radix = 16 ∧ 97 ≤ n ∧ n ≤ 102 then some (n - 87)
  else if radix = 16 ∧ 65 ≤ n ∧ n ≤ 70 then some (n - 55)
  else none

/-- The longest run of digits at the head of the text, read in the radix:
the value read so far and whether any digit was read. -/
def readDigits (radix : Nat) : List Char → Nat → Bool → Nat × Bool
  | [], acc, seen => (acc, seen)
  | c :: cs, acc, seen =>
    match digitValue radix c with
    | some d => readDigits radix cs (acc * radix + d) true
    | none => (acc, seen)

/-- The digits of `parseInt` after the sign: a `0x` or `0X` mark selects
radix 16. `none` is `NaN`. -/
def parseMagnitude (cs : List Char) : Option Nat :=
  let r :=
    match cs with
    | '0' :: 'x' :: rest => readDigits 16 rest 0 false
    | '0' :: 'X' :: rest => readDigits 16 rest 0 false
    | _ => readDigits 10 cs 0 false
  if r.2 then some r.1 else none

/-- The function `parseInt(text)` without a radix argument; `none` is `NaN`.
The value is exact: the rounding of integers above `2 ^ 53` to a double is
left out. -/
def parseInt (text : String) : Option Int :=
  match text.toList.dropWhile isJsSpace with
  | '-' :: rest => (parseMagnitude rest).map (fun m => - (m : Int))
  | '+' :: rest => (parseMagnitude rest).map (fun m => (m : Int))
  | cs => (parseMagnitude cs).map (fun m => (m : Int))

/-! ## Double-precision arithmetic and the code generator -/

/-- Rounding of a rational to the nearest integer, ties to the even one. -/
def roundTiesEven (q : ℚ) : Int :=
  let f := ⌊q⌋
  let d := q - f
  if d < 1 / 2 then f
  else if 1 / 2 < d then f + 1
  else if f % 2 = 0 then f else f + 1

/-- The spacing of the doubles around a positive rational: `2 ^ (e - 52)`
where `2 ^ e ≤ x < 2 ^ (e + 1)`, and `e` is `-1022` in the subnormal range. -/
def ulp (x : ℚ) : ℚ := 2 ^ (max (Int.log 2 x) (-1022) - 52)

/-- The double nearest to a non-negative rational below `2 ^ 1024` (round to
nearest, ties to even): the result of one arithmetic operation carried out
exactly and then rounded. -/
def toDouble (x : ℚ) : ℚ :=
  if x ≤ 0 then 0 else roundTiesEven (x / ulp x) * ulp x

/-- The function `generateVerificationCode`, on the value `r` that
`Math.random()` returns. -/
def generateVerificationCode (r : ℚ) : String :=
  toString ⌊toDouble (100000 + toDouble (r * 900000))⌋

/-! ## State of the access page and effects on its surroundings -/

/-- What a handler does to the page, the mail service and the storage. -/
inductive Effect where
  | setItem (key value : String) : Effect
  | removeItem (key : String) : Effect
  | showMessage (message type : String) : Effect
  | showLoading (active : Bool) : Effect
  | showVerificationSection : Effect
  | focusCodeInput : Effect
  | clearCodeInput : Effect
  | resetForm : Effect
  | logAccess (userData : JVal) : Effect
  | emailSend (name email code : String) : Effect
  | redirect (url : String) : Effect
  | rejected : Effect

/-- The origin's `localStorage`, the module variables of `auth.js`, and the
effects so far. -/
structure State where
  localStorage : Store
  currentUserData : JVal
  generatedCode : String
  codeTimestamp : Int
  log : List Effect

/-- Appends an effect to the log. -/
def State.emit (st : State) (e : Effect) : State :=
  { st with log := st.log ++ [e] }

/-- The call `localStorage.setItem(key, value)`. -/
def State.setItem (st : State) (key value : String) : State :=
  { st with localStorage := st.localStorage.setItem key value,
            log := st.log ++ [Effect.setItem key value] }

/-- The call `localStorage.removeItem(key)`. -/
def State.removeItem (st : State) (key : String) : State :=
  { st with localStorage := st.localStorage.removeItem key,
            log := st.log ++ [Effect.removeItem key] }

/-- The function `showMessage`. -/
def showMessage (st : State) (message type : String) : State :=
  st.emit (Effect.showMessage message type)

/-- The function `resetForm`: it touches the page only. -/
def resetForm (st : State) : State :=
  st.emit Effect.resetForm

/-- The function `logAccess`: it writes to the console only. -/
def logAccess (st : State) (userData : JVal) : State :=
  st.emit (Effect.logAccess userData)

/-- The session object that `grantAccess` builds. -/
def sessionOf (userData : JVal) (now : Int) : JVal :=
  JVal.obj [("user", userData), ("authenticated", JVal.bool true),
    ("loginTimestamp", JVal.num now), ("expiresAt", JVal.num (now + sessionDuration))]

/-- The function `grantAccess`. -/
def grantAccess (B : Builtins) (st : State) (userData : JVal) (now : Int) : State :=
  let session := sessionOf userData now
  let st := st.setItem "warpeedSession" (B.jsonStringify session)
  let st := logAccess st userData
  let st := st.removeItem "pendingUser"
  let st := st.removeItem "verificationCode"
  let st := st.removeItem "codeTimestamp"
  let st := showMessage st "Access granted! Redirecting..." "success"
  st.emit (Effect.redirect "index.html")

/-- The value `storedTimestamp` of `handleVerification`; `none` is `NaN`. -/
def storedTimestamp (ls : Store) : Option Int :=
  parseInt (orElse (ls.getItem "codeTimestamp") "0")

/-- The test `Date.now() - storedTimestamp > AUTH_CONFIG.codeExpiration`,
false on `NaN`. -/
def codeExpired (ls : Store) (now : Int) : Bool :=
  match storedTimestamp ls with
  | some t => decide (now - t > codeExpiration)
  | none => false

/-- The function `handleVerification`, on the text of the code field. A
failure of `JSON.parse` is not caught: the handler stops there. -/
def handleVerification (B : Builtins) (st : State) (codeField : String) (now : Int) : State :=
  let enteredCode := jsTrim codeField
  let storedCode := st.localStorage.getItem "verificationCode"
  if codeExpired st.localStorage now then
    let st := showMessage st "Verification code has expired. Please request a new code." "error"
    resetForm st
  else if storedCode = some enteredCode then
    match B.jsonParse (orElse (st.localStorage.getItem "pendingUser") "\x7b\x7d") with
    | none => st.emit Effect.rejected
    | some userData => grantAccess B st userData now
  else
    let st := showMessage st "Invalid verification code. Please try again." "error"
    let st := st.emit Effect.clearCodeInput
    st.emit Effect.focusCodeInput

/-- The fields of the access form as the page holds them. -/
structure AccessForm where
  fullName : String
  email : String
  organization : String
  ndaAccept : Bool

/-- How the mail service answers: the SDK is not loaded, or `emailjs.send`
resolves, or it rejects. -/
inductive Delivery where
  | sdkMissing : Delivery
  | resolved : Delivery
  | failed : Delivery

/-- The test `isConfigured` of `sendVerificationEmail`. -/
def isConfigured : Bool :=
  decide (emailJsServiceId ≠ "YOUR_EMAILJS_SERVICE_ID") &&
  decide (emailJsTemplateId ≠ "YOUR_EMAILJS_TEMPLATE_ID") &&
  decide (emailJsPublicKey ≠ "YOUR_EMAILJS_PUBLIC_KEY")

/-- The function `sendVerificationEmail`: the state afterwards and whether
the promise resolved. -/
def sendVerificationEmail (st : State) (name email code : String) (d : Delivery) :
    State × Bool :=
  if !isConfigured then (st, true)
  else
    match d with
    | Delivery.sdkMissing => (st, false)
    | Delivery.resolved => (st.emit (Effect.emailSend name email code), true)
    | Delivery.failed => (st.emit (Effect.emailSend name email code), false)

/-- The object `creatorData` of the bypass branch of `handleAccessRequest`. -/
def creatorData (fullName email iso : String) : JVal :=
  JVal.obj [
    ("fullName", JVal.str (if fullName = "" then "Creator" else fullName)),
    ("email", JVal.str (if email = "" then creatorEmail else email)),
    ("organization", JVal.str "Warpeed Technologies"),
    ("ndaAccepted", JVal.bool true),
    ("ndaAcceptedTimestamp", JVal.str iso),
    ("isCreator", JVal.bool true)]

/-- The object assigned to `currentUserData` in `handleAccessRequest`. -/
def pendingData (fullName email organization iso : String) : JVal :=
  JVal.obj [
    ("fullName", JVal.str fullName),
    ("email", JVal.str email),
    ("organization", JVal.str organization),
    ("ndaAccepted", JVal.bool true),
    ("ndaAcceptedTimestamp", JVal.str iso)]

/-- The function `handleAccessRequest`. The arguments are the form, the
clock, the text of `new Date().toISOString()`, the value of `Math.random()`
and the answer of the mail service. -/
def handleAccessRequest (B : Builtins) (st : State) (form : AccessForm) (now : Int)
    (iso : String) (r : ℚ) (d : Delivery) : State :=
  let fullName := jsTrim form.fullName
  let email := jsTrim form.email
  let organization := jsTrim form.organization
  let ndaAccept := form.ndaAccept
  if fullName = "" ∨ email = "" ∨ ndaAccept = false then
    showMessage st "Please fill in all required fields and accept the NDA." "error"
  else if emailRegexTest email = false then
    showMessage st "Please enter a valid email address." "error"
  else if organization = creatorMasterCode ∨ email = creatorEmail then
    grantAccess B st (creatorData fullName email iso) now
  else
    let userData := pendingData fullName email organization iso
    let code := generateVerificationCode r
    let st := { st with currentUserData := userData, generatedCode := code, codeTimestamp := now }
    let st := st.setItem "pendingUser" (B.jsonStringify userData)
    let st := st.setItem "verificationCode" code
    let st := st.setItem "codeTimestamp" (toString now)
    let st := st.emit (Effect.showLoading true)
    let sent := sendVerificationEmail st fullName email code d
    let st := sent.1.emit (Effect.showLoading false)
    if sent.2 then
      let st := showMessage st
        ("Verification code sent successfully to " ++ email ++ ". Please check your inbox.")
        "success"
      let st := st.emit Effect.showVerificationSection
      st.emit Effect.focusCodeInput
    else
      let st := showMessage st ("Demo Mode: Your verification code is: " ++ code) "success"
      st.emit Effect.showVerificationSection

/-- The shape `local@domain.tld` in the words of the specification: three
non-empty runs of characters that are neither white space nor `@`, the first
two separated by one `@`, the last two by a `.`. -/
def HasEmailShape (email : String) : Prop :=
  ∃ l d t : List Char, email.toList = l ++ '@' :: (d ++ '.' :: t) ∧
    l ≠ [] ∧ d ≠ [] ∧ t ≠ [] ∧
    (∀ c ∈ l, isJsSpace c = false ∧ c ≠ '@') ∧
    (∀ c ∈ d, isJsSpace c = false ∧ c ≠ '@') ∧
    (∀ c ∈ t, isJsSpace c = false ∧ c ≠ '@')

/-! ## The expiry warning of protected pages (`auth-check.js`) -/

/-- The two storage areas a protected page works on. -/
structure PageState where
  localStorage : Store
  sessionStorage : Store

/-- The function `checkSessionExpiry`. `now` is the clock when the remaining
time is computed, `accept` the answer to `confirm`, `later` the clock after
the dialog. Every failure inside the `try` block is caught and logged. -/
def checkSessionExpiry (B : Builtins) (ps : PageState) (now : Int) (accept : Bool)
    (later : Int) : PageState :=
  match ps.localStorage.getItem "warpeedSession" with
  | none => ps
  | some session =>
    if session = "" then ps
    else
      match B.jsonParse session with
      | none => ps
      | some sessionData =>
        match sessionData.prop "expiresAt" with
        | none => ps
        | some expiresAt =>
          match toNumber B expiresAt with
          | none => ps
          | some e =>
            let timeRemaining := e - now
            let fiveMinutes : Int := 5 * 60 * 1000
            if timeRemaining > 0 ∧ timeRemaining < fiveMinutes ∧
                truthy (ps.sessionStorage.getItem "expiryWarningShown") = false then
              let ps := { ps with
                sessionStorage := ps.sessionStorage.setItem "expiryWarningShown" "true" }
              if accept then
                match sessionData with
                | JVal.obj fields =>
                  let extended :=
                    JVal.obj (setField fields "expiresAt" (JVal.num (later + 24 * 60 * 60 * 1000)))
                  let ps := { ps with
                    localStorage := ps.localStorage.setItem "warpeedSession"
                      (B.jsonStringify extended) }
                  { ps with sessionStorage := ps.sessionStorage.removeItem "expiryWarningShown" }
                | _ => ps
              else ps
            else ps

/-! ## Runs of the verification form -/

/-- Successive submissions of the verification form: each entry is the text
of the code field and the clock at the submission. -/
def verifyAll (B : Builtins) (st : State) : List (String × Int) → State
  | [] => st
  | (codeField, now) :: rest => verifyAll B (handleVerification B st codeField now) rest

/-- What one mismatched submission adds to the log. -/
def mismatchEffects : List Effect :=
  [Effect.showMessage "Invalid verification code. Please try again." "error",
   Effect.clearCodeInput, Effect.focusCodeInput]

/-- What a submission after the expiry of the code adds to the log. -/
def expiredEffects : List Effect :=
  [Effect.showMessage "Verification code has expired. Please request a new code." "error",
   Effect.resetForm]

/-- What `grantAccess` adds to the log. -/
def grantEffects (B : Builtins) (userData : JVal) (now : Int) : List Effect :=
  [Effect.setItem "warpeedSession" (B.jsonStringify (sessionOf userData now)),
   Effect.logAccess userData,
   Effect.removeItem "pendingUser",
   Effect.removeItem "verificationCode",
   Effect.removeItem "codeTimestamp",
   Effect.showMessage "Access granted! Redirecting..." "success",
   Effect.redirect "index.html"]

/-! ## A concrete runtime for the examples -/

/-- The digit of `\u00XX` escapes. -/
def hexDigit (n : Nat) : Char :=
  if n < 10 then Char.ofNat (48 + n) else Char.ofNat (87 + n)

/-- The escape of one character inside a JSON string. -/
def escapeChar (c : Char) : List Char :=
  if c = '"' then ['\\', '"']
  else if c = '\\' then ['\\', '\\']
  else if c = '\n' then ['\\', 'n']
  else if c = '\r' then ['\\', 'r']
  else if c = '\t' then ['\\', 't']
  else if c.toNat = 8 then ['\\', 'b']
  else if c.toNat = 12 then ['\\', 'f']
  else if c.toNat < 32 then
    ['\\', 'u', '0', '0', hexDigit (c.toNat / 16), hexDigit (c.toNat % 16)]
  else [c]

/-- A JSON string literal. -/
def quoteString (s : String) : String :=
  "\"" ++ String.mk (s.toList.flatMap escapeChar) ++ "\""

mutual
/-- The text `JSON.stringify` writes for a value without `undefined` parts. -/
def writeJson : JVal → String
  | .undefined => "undefined"
  | .null => "null"
  | .bool true => "true"
  | .bool false => "false"
  | .num n => toString n
  | .str s => quoteString s
  | .arr items => "[" ++ writeItems items ++ "]"
  | .obj fields => "\x7b" ++ writeFields fields ++ "\x7d"
/-- The elements of an array, separated by commas. -/
def writeItems : List JVal → String
  | [] => ""
  | [x] => writeJson x
  | x :: rest => writeJson x ++ "," ++ writeItems rest
/-- The properties of an object, separated by commas. -/
def writeFields : List (String × JVal) → String
  | [] => ""
  | [(k, v)] => quoteString k ++ ":" ++ writeJson v
  | (k, v) :: rest => quoteString k ++ ":" ++ writeJson v ++ "," ++ writeFields rest
end

/-- A reader that knows the texts of the listed values and rejects every
other text. -/
def readKnown (known : List JVal) (text : String) : Option JVal :=
  known.find? (fun v => writeJson v == text)

/-- The runtime of the examples: `writeJson` for `JSON.stringify`, its
inverse on the listed values for `JSON.parse`. -/
def demoBuiltins (known : List JVal) : Builtins :=
  { jsonParse := readKnown known, jsonStringify := writeJson, coerce := fun _ => none }

/-- A pending registration. -/
def demoUser : JVal :=
  JVal.obj [("fullName", JVal.str "Ada"), ("email", JVal.str "ada@example.org"),
    ("organization", JVal.str "X"), ("ndaAccepted", JVal.bool true),
    ("ndaAcceptedTimestamp", JVal.str "2025-01-01T00:00:00.000Z")]

/-- The session granted to `demoUser` at time `1000`: it expires at
`86401000`. -/
def demoSession : JVal := sessionOf demoUser 1000

/-- The empty storage. -/
def emptyStore : Store := fun _ => none

/-- A storage that holds the session `demoSession` and nothing else. -/
def demoSessionStore : Store :=
  emptyStore.setItem "warpeedSession" (writeJson demoSession)

/-- A storage after a request by `demoUser` at time `1000`: the pending
registration, the code `123456` and its timestamp. -/
def demoPendingStore : Store :=
  ((emptyStore.setItem "pendingUser" (writeJson demoUser)).setItem
    "verificationCode" "123456").setItem "codeTimestamp" "1000"

/-- The state of the access page after that request. -/
def demoPendingState : State :=
  { localStorage := demoPendingStore, currentUserData := demoUser,
    generatedCode := "123456", codeTimestamp := 1000, log := [] }

/-- A fresh access page: empty storage, the initial module variables. -/
def freshState : State :=
  { localStorage := emptyStore, currentUserData := JVal.obj [], generatedCode := "",
    codeTimestamp := 0, log := [] }

/-- A form filled by the creator: the master code as organization. -/
def creatorForm : AccessForm :=
  { fullName := "Ada", email := "ada@example.org", organization := "WARPEED2025CREATOR",
    ndaAccept := true }

/-- The session that the creator form yields at time `1000`. -/
def creatorSession : JVal :=
  sessionOf (creatorData "Ada" "ada@example.org" "2025-01-01T00:00:01.000Z") 1000

/-- A protected page that holds `demoSession` and has shown no warning. -/
def demoPage : PageState :=
  { localStorage := demoSessionStore, sessionStorage := emptyStore }

/-! ## Facts about values and storage -/

theorem strictlyTrue_iff (a : JVal) : strictlyTrue a = true ↔ a = JVal.bool true := by
  cases a with
  | bool b => cases b <;> simp [strictlyTrue]
  | _ => simp [strictlyTrue]

theorem jsLt_num (B : Builtins) (e now : Int) :
    jsLt B (JVal.num e) now = decide (e < now) := by
  simp [jsLt, toNumber]

theorem setItem_same (s : Store) (key value : String) :
    s.setItem key value key = some value := by
  simp [Store.setItem]

theorem setItem_other (s : Store) (key value k : String) (h : k ≠ key) :
    s.setItem key value k = s k := by
  simp [Store.setItem, h]

theorem removeItem_same (s : Store) (key : String) : s.removeItem key key = none := by
  simp [Store.removeItem]

theorem removeItem_other (s : Store) (key k : String) (h : k ≠ key) :
    s.removeItem key k = s k := by
  simp [Store.removeItem, h]

theorem removeItem_absent (s : Store) (key : String) (h : s key = none) :
    s.removeItem key = s := by
  funext k
  by_cases hk : k = key
  · subst hk; simp [Store.removeItem, h]
  · simp [Store.removeItem, hk]

/-! ## The gatekeeper -/

/-- Every case in which `isAuthenticated` answers true. -/
theorem isAuthenticated_true_iff (B : Builtins) (ls : Store) (now : Int) :
    (isAuthenticated B ls now).2 = true ↔
      ∃ text v x, ls "warpeedSession" = some text ∧ text ≠ "" ∧
        B.jsonParse text = some v ∧ v.prop "expiresAt" = some x ∧
        jsLt B x now = false ∧ v.prop "authenticated" = some (JVal.bool true) := by
  unfold isAuthenticated Store.getItem
  cases h1 : ls "warpeedSession" with
  | none => simp
  | some text =>
    by_cases h2 : text = ""
    · simp [h2]
    · cases h3 : B.jsonParse text with
      | none => simp [h2, h3]
      | some v =>
        cases h4 : v.prop "expiresAt" with
        | none => simp [h2, h3, h4]
        | some x =>
          cases h5 : jsLt B x now with
          | true => simp [h2, h3, h4, h5]
          | false =>
            cases h6 : v.prop "authenticated" with
            | none => simp [h2, h3, h4, h5, h6]
            | some a => simp [h2, h3, h4, h5, h6, strictlyTrue_iff]

/-- The storage is touched by `isAuthenticated` only in the key
`warpeedSession`. -/
theorem isAuthenticated_other_keys (B : Builtins) (ls : Store) (now : Int) (k : String)
    (hk : k ≠ "warpeedSession") : (isAuthenticated B ls now).1 k = ls k := by
  unfold isAuthenticated
  repeat' split
  all_goals first | rfl | exact removeItem_other ls _ k hk

/-- Without a record, `isAuthenticated` answers false and changes nothing. -/
theorem isAuthenticated_absent (B : Builtins) (ls : Store) (now : Int)
    (h : ls "warpeedSession" = none) : isAuthenticated B ls now = (ls, false) := by
  simp [isAuthenticated, Store.getItem, h]

theorem readKnown_single (v0 v : JVal) (text : String)
    (h : readKnown [v0] text = some v) : v = v0 ∧ text = writeJson v0 := by
  unfold readKnown at h
  have hp := List.find?_some h
  have hm := List.mem_of_find?_eq_some h
  simp only [List.mem_singleton] at hm
  subst hm
  exact ⟨rfl, (by simpa using hp : writeJson v = text).symm⟩

/-- C1 (as stated) fails at the instant of expiry: the store holds the session
`demoSession`, whose `expiresAt` is `86401000`, and the clock reads
`86401000`. `isAuthenticated` answers true, yet no stored record has
`now < expiresAt`. -/
theorem isAuthenticated_at_expiry_counterexample :
    ¬ ((isAuthenticated (demoBuiltins [demoSession]) demoSessionStore 86401000).2 = true ↔
        ∃ text v e, demoSessionStore "warpeedSession" = some text ∧
          (demoBuiltins [demoSession]).jsonParse text = some v ∧
          v.prop "authenticated" = some (JVal.bool true) ∧
          v.prop "expiresAt" = some (JVal.num e) ∧ (86401000 : Int) < e) := by
  intro h
  have hres : (isAuthenticated (demoBuiltins [demoSession]) demoSessionStore 86401000).2
      = true := by
    set_option maxRecDepth 100000 in decide
  obtain ⟨text, v, e, _, h2, _, h4, h5⟩ := h.mp hres
  have hv := (readKnown_single demoSession v text h2).1
  subst hv
  have he : e = 86401000 := by
    simp [demoSession, sessionOf, JVal.prop, List.lookup, sessionDuration] at h4
    omega
  omega

/-- C1 (amended): for every store and clock in which a stored record that
can be read has a numeric `expiresAt`, `isAuthenticated` answers true exactly
when a non-empty `warpeedSession` text is stored, `JSON.parse` accepts it,
its `authenticated` is exactly `true`, and `now ≤ expiresAt`. -/
theorem isAuthenticated_iff_valid (B : Builtins) (ls : Store) (now : Int)
    (hnum : ∀ text v x, ls "warpeedSession" = some text → B.jsonParse text = some v →
      v.prop "expiresAt" = some x → ∃ e, x = JVal.num e) :
    (isAuthenticated B ls now).2 = true ↔
      ∃ text v e, ls "warpeedSession" = some text ∧ text ≠ "" ∧
        B.jsonParse text = some v ∧
        v.prop "authenticated" = some (JVal.bool true) ∧
        v.prop "expiresAt" = some (JVal.num e) ∧ now ≤ e := by
  rw [isAuthenticated_true_iff]
  constructor
  · rintro ⟨text, v, x, h1, h2, h3, h4, h5, h6⟩
    obtain ⟨e, rfl⟩ := hnum text v x h1 h3 h4
    rw [jsLt_num] at h5
    exact ⟨text, v, e, h1, h2, h3, h6, h4, by simpa using h5⟩
  · rintro ⟨text, v, e, h1, h2, h3, h4, h5, h6⟩
    exact ⟨text, v, JVal.num e, h1, h2, h3, h5, by rw [jsLt_num]; simpa using h6, h4⟩

/-- The amended C1 at the instant of expiry of `demoSession`: the answer is
true. -/
theorem isAuthenticated_iff_valid_witness :
    (isAuthenticated (demoBuiltins [demoSession]) demoSessionStore 86401000).2 = true ∧
      ∃ text v e, demoSessionStore "warpeedSession" = some text ∧ text ≠ "" ∧
        (demoBuiltins [demoSession]).jsonParse text = some v ∧
        v.prop "authenticated" = some (JVal.bool true) ∧
        v.prop "expiresAt" = some (JVal.num e) ∧ (86401000 : Int) ≤ e := by
  have hnum : ∀ text v x, demoSessionStore "warpeedSession" = some text →
      (demoBuiltins [demoSession]).jsonParse text = some v →
      v.prop "expiresAt" = some x → ∃ e, x = JVal.num e := by
    intro text v x _ h2 h3
    have hv := (readKnown_single demoSession v text h2).1
    subst hv
    simp [demoSession, sessionOf, JVal.prop, List.lookup] at h3
    exact ⟨_, h3.symm⟩
  have hres : (isAuthenticated (demoBuiltins [demoSession]) demoSessionStore 86401000).2
      = true := by
    set_option maxRecDepth 100000 in decide
  exact ⟨hres, (isAuthenticated_iff_valid _ _ _ hnum).mp hres⟩

/-- C8: when the stored session has a numeric `expiresAt` below the clock,
`isAuthenticated` removes `warpeedSession`, leaves every other key as it was
and answers false; a second call at any time answers false and returns the
storage the first call left. -/
theorem isAuthenticated_expired_cleanup (B : Builtins) (ls : Store) (now : Int)
    (text : String) (v : JVal) (e : Int)
    (h1 : ls "warpeedSession" = some text) (h2 : text ≠ "")
    (h3 : B.jsonParse text = some v) (h4 : v.prop "expiresAt" = some (JVal.num e))
    (h5 : e < now) :
    (isAuthenticated B ls now).1 "warpeedSession" = none ∧
    (∀ k, k ≠ "warpeedSession" → (isAuthenticated B ls now).1 k = ls k) ∧
    (isAuthenticated B ls now).2 = false ∧
    ∀ later, isAuthenticated B (isAuthenticated B ls now).1 later
      = ((isAuthenticated B ls now).1, false) := by
  have hrun : isAuthenticated B ls now = (ls.removeItem "warpeedSession", false) := by
    simp [isAuthenticated, Store.getItem, h1, h2, h3, h4, jsLt_num, h5]
  rw [hrun]
  refine ⟨removeItem_same ls "warpeedSession",
    fun k hk => removeItem_other ls "warpeedSession" k hk, rfl, fun later => ?_⟩
  exact isAuthenticated_absent B _ later (removeItem_same ls "warpeedSession")

/-- C8 on `demoSession` one millisecond after its expiry. -/
theorem isAuthenticated_expired_cleanup_witness :
    (isAuthenticated (demoBuiltins [demoSession]) demoSessionStore 86401001).1
        "warpeedSession" = none ∧
    (isAuthenticated (demoBuiltins [demoSession]) demoSessionStore 86401001).2 = false ∧
    isAuthenticated (demoBuiltins [demoSession])
        (isAuthenticated (demoBuiltins [demoSession]) demoSessionStore 86401001).1 90000000
      = ((isAuthenticated (demoBuiltins [demoSession]) demoSessionStore 86401001).1, false) := by
  have h := isAuthenticated_expired_cleanup (demoBuiltins [demoSession]) demoSessionStore
    86401001 (writeJson demoSession) demoSession 86401000
    (by simp [demoSessionStore, Store.setItem])
    (by set_option maxRecDepth 100000 in decide)
    (by set_option maxRecDepth 100000 in
        simp [demoBuiltins, readKnown, List.find?])
    (by simp [demoSession, sessionOf, JVal.prop, List.lookup, sessionDuration])
    (by decide)
  exact ⟨h.1, h.2.2.1, h.2.2.2 90000000⟩

/-! ## The verification stage -/

theorem grantAccess_log (B : Builtins) (st : State) (u : JVal) (now : Int) :
    (grantAccess B st u now).log = st.log ++ grantEffects B u now := by
  simp [grantAccess, grantEffects, State.setItem, State.removeItem, State.emit, logAccess,
    showMessage]

theorem grantAccess_session (B : Builtins) (st : State) (u : JVal) (now : Int) :
    (grantAccess B st u now).localStorage "warpeedSession"
      = some (B.jsonStringify (sessionOf u now)) := by
  simp [grantAccess, State.setItem, State.removeItem, State.emit, logAccess, showMessage,
    Store.setItem, Store.removeItem]

theorem grantAccess_pending (B : Builtins) (st : State) (u : JVal) (now : Int) :
    (grantAccess B st u now).localStorage "pendingUser" = none ∧
    (grantAccess B st u now).localStorage "verificationCode" = none ∧
    (grantAccess B st u now).localStorage "codeTimestamp" = none := by
  simp [grantAccess, State.setItem, State.removeItem, State.emit, logAccess, showMessage,
    Store.setItem, Store.removeItem]

theorem grantAccess_other_keys (B : Builtins) (st : State) (u : JVal) (now : Int) (k : String)
    (h1 : k ≠ "warpeedSession") (h2 : k ≠ "pendingUser") (h3 : k ≠ "verificationCode")
    (h4 : k ≠ "codeTimestamp") :
    (grantAccess B st u now).localStorage k = st.localStorage k := by
  simp [grantAccess, State.setItem, State.removeItem, State.emit, logAccess, showMessage,
    Store.setItem, Store.removeItem, h1, h2, h3, h4]

theorem parseInt_empty : parseInt "" = none := by decide

theorem storedTimestamp_of (ls : Store) (ttext : String) (T : Int)
    (ht : ls "codeTimestamp" = some ttext) (hT : parseInt ttext = some T) :
    storedTimestamp ls = some T := by
  have hne : ttext ≠ "" := by
    intro h
    rw [h, parseInt_empty] at hT
    exact Option.noConfusion hT
  simp [storedTimestamp, Store.getItem, ht, orElse, hne, hT]

theorem storedTimestamp_absent (ls : Store) (ht : ls "codeTimestamp" = none) :
    storedTimestamp ls = some 0 := by
  simp only [storedTimestamp, Store.getItem, ht, orElse]
  decide

/-- The expired branch of `handleVerification`. -/
theorem handleVerification_of_expired (B : Builtins) (st : State) (codeField : String)
    (now : Int) (h : codeExpired st.localStorage now = true) :
    handleVerification B st codeField now = { st with log := st.log ++ expiredEffects } := by
  simp [handleVerification, h, showMessage, resetForm, State.emit, expiredEffects]

/-- The mismatch branch of `handleVerification`. -/
theorem handleVerification_of_mismatch (B : Builtins) (st : State) (codeField : String)
    (now : Int) (h : codeExpired st.localStorage now = false)
    (hne : st.localStorage "verificationCode" ≠ some (jsTrim codeField)) :
    handleVerification B st codeField now = { st with log := st.log ++ mismatchEffects } := by
  simp [handleVerification, h, Store.getItem, hne, showMessage, State.emit, mismatchEffects]

/-- The grant branch of `handleVerification`. -/
theorem handleVerification_of_match (B : Builtins) (st : State) (codeField : String)
    (now : Int) (u : JVal) (h : codeExpired st.localStorage now = false)
    (heq : st.localStorage "verificationCode" = some (jsTrim codeField))
    (hu : B.jsonParse (orElse (st.localStorage "pendingUser") "\x7b\x7d") = some u) :
    handleVerification B st codeField now = grantAccess B st u now := by
  simp [handleVerification, h, Store.getItem, heq, hu]

/-- The branch of `handleVerification` in which `JSON.parse` throws. -/
theorem handleVerification_of_throw (B : Builtins) (st : State) (codeField : String)
    (now : Int) (h : codeExpired st.localStorage now = false)
    (heq : st.localStorage "verificationCode" = some (jsTrim codeField))
    (hu : B.jsonParse (orElse (st.localStorage "pendingUser") "\x7b\x7d") = none) :
    handleVerification B st codeField now = st.emit Effect.rejected := by
  simp [handleVerification, h, Store.getItem, heq, hu]

theorem codeExpired_of (ls : Store) (now T : Int) (h : storedTimestamp ls = some T) :
    codeExpired ls now = decide (now - T > codeExpiration) := by
  simp [codeExpired, h]

/-- C2: with a pending registration `P`, a stored code `C` and a timestamp
`T` in the store, at a time `now` with `now - T ≤ codeExpiration`, a
submission whose trimmed code is `C` stores under `warpeedSession` the text
of the session with `authenticated = true`, `expiresAt = now + 86400000` and
`user = P`, and removes `pendingUser`, `verificationCode`, `codeTimestamp`. -/
theorem handleVerification_grants_session (B : Builtins) (st : State) (codeField : String)
    (now : Int) (ptext : String) (P : JVal) (C ttext : String) (T : Int)
    (hp : st.localStorage "pendingUser" = some ptext) (hp0 : ptext ≠ "")
    (hP : B.jsonParse ptext = some P)
    (hc : st.localStorage "verificationCode" = some C)
    (ht : st.localStorage "codeTimestamp" = some ttext) (hT : parseInt ttext = some T)
    (hwin : now - T ≤ codeExpiration) (hent : jsTrim codeField = C) :
    ∃ session : JVal,
      (handleVerification B st codeField now).localStorage "warpeedSession"
        = some (B.jsonStringify session) ∧
      session.prop "authenticated" = some (JVal.bool true) ∧
      session.prop "expiresAt" = some (JVal.num (now + 86400000)) ∧
      session.prop "user" = some P ∧
      (handleVerification B st codeField now).localStorage "pendingUser" = none ∧
      (handleVerification B st codeField now).localStorage "verificationCode" = none ∧
      (handleVerification B st codeField now).localStorage "codeTimestamp" = none := by
  have hexp : codeExpired st.localStorage now = false := by
    rw [codeExpired_of _ _ _ (storedTimestamp_of _ _ _ ht hT)]
    simpa using hwin
  have hrun := handleVerification_of_match B st codeField now P hexp (by rw [hc, hent])
    (by simp [hp, orElse, hp0, hP])
  rw [hrun]
  refine ⟨sessionOf P now, grantAccess_session B st P now, ?_, ?_, ?_, grantAccess_pending B st P now⟩
  · simp [sessionOf, JVal.prop, List.lookup]
  · simp [sessionOf, JVal.prop, List.lookup, sessionDuration]
  · simp [sessionOf, JVal.prop, List.lookup]

/-- C2 on the pending request of `demoUser`: the code `123456` entered at
time `2000`. -/
theorem handleVerification_grants_session_witness :
    ∃ session : JVal,
      (handleVerification (demoBuiltins [demoUser]) demoPendingState " 123456 " 2000).localStorage
          "warpeedSession" = some ((demoBuiltins [demoUser]).jsonStringify session) ∧
      session.prop "authenticated" = some (JVal.bool true) ∧
      session.prop "expiresAt" = some (JVal.num (2000 + 86400000)) ∧
      session.prop "user" = some demoUser ∧
      (handleVerification (demoBuiltins [demoUser]) demoPendingState " 123456 " 2000).localStorage
          "pendingUser" = none ∧
      (handleVerification (demoBuiltins [demoUser]) demoPendingState " 123456 " 2000).localStorage
          "verificationCode" = none ∧
      (handleVerification (demoBuiltins [demoUser]) demoPendingState " 123456 " 2000).localStorage
          "codeTimestamp" = none :=
  handleVerification_grants_session (demoBuiltins [demoUser]) demoPendingState " 123456 " 2000
    (writeJson demoUser) demoUser "123456" "1000" 1000
    (by simp [demoPendingState, demoPendingStore, Store.setItem])
    (by set_option maxRecDepth 100000 in decide)
    (by set_option maxRecDepth 100000 in simp [demoBuiltins, readKnown, List.find?])
    (by simp [demoPendingState, demoPendingStore, Store.setItem])
    (by simp [demoPendingState, demoPendingStore, Store.setItem])
    (by decide) (by decide) (by decide)

/-- C3 (as stated) fails: in the pending request of `demoUser`, issued at
time `1000`, the correct code `123456` is entered at time `901001`, more than
15 minutes later. The three pending keys are still in the store afterwards. -/
theorem handleVerification_expired_counterexample :
    (901001 : Int) - 1000 > codeExpiration ∧
    (handleVerification (demoBuiltins [demoUser]) demoPendingState "123456" 901001).localStorage
        "pendingUser" = some (writeJson demoUser) ∧
    (handleVerification (demoBuiltins [demoUser]) demoPendingState "123456" 901001).localStorage
        "verificationCode" = some "123456" ∧
    (handleVerification (demoBuiltins [demoUser]) demoPendingState "123456" 901001).localStorage
        "codeTimestamp" = some "1000" := by
  have hrun := handleVerification_of_expired (demoBuiltins [demoUser]) demoPendingState
    "123456" 901001 (by decide)
  rw [hrun]
  refine ⟨by decide, ?_, ?_, ?_⟩ <;> simp [demoPendingState, demoPendingStore, Store.setItem]

/-- C3 (amended): with a timestamp `T` in the store and `now - T >
codeExpiration`, a submission with any code shows the message that the code
has expired, resets the form, and changes neither the storage (no session is
created, the pending keys stay) nor the module variables. -/
theorem handleVerification_expired (B : Builtins) (st : State) (codeField : String)
    (now : Int) (ttext : String) (T : Int)
    (ht : st.localStorage "codeTimestamp" = some ttext) (hT : parseInt ttext = some T)
    (hlate : now - T > codeExpiration) :
    handleVerification B st codeField now =
      { st with log := st.log ++
          [Effect.showMessage "Verification code has expired. Please request a new code." "error",
           Effect.resetForm] } ∧
    (handleVerification B st codeField now).localStorage = st.localStorage := by
  have hexp : codeExpired st.localStorage now = true := by
    rw [codeExpired_of _ _ _ (storedTimestamp_of _ _ _ ht hT)]
    simpa using hlate
  rw [handleVerification_of_expired B st codeField now hexp]
  exact ⟨rfl, rfl⟩

/-- The amended C3 on the pending request of `demoUser`, the correct code
entered after 15 minutes and one millisecond. -/
theorem handleVerification_expired_witness :
    (handleVerification (demoBuiltins [demoUser]) demoPendingState "123456" 901001).localStorage
        = demoPendingState.localStorage ∧
    (handleVerification (demoBuiltins [demoUser]) demoPendingState "123456" 901001).log =
        [Effect.showMessage "Verification code has expired. Please request a new code." "error",
         Effect.resetForm] := by
  have h := handleVerification_expired (demoBuiltins [demoUser]) demoPendingState "123456"
    901001 "1000" 1000 (by simp [demoPendingState, demoPendingStore, Store.setItem])
    (by decide) (by decide)
  refine ⟨h.2, ?_⟩
  rw [h.1]
  rfl

/-- A run of mismatched submissions inside the window only grows the log. -/
theorem verifyAll_mismatches (B : Builtins) (C ttext : String) (T : Int)
    (attempts : List (String × Int)) :
    ∀ st : State, st.localStorage "verificationCode" = some C →
      st.localStorage "codeTimestamp" = some ttext → parseInt ttext = some T →
      (∀ a ∈ attempts, jsTrim a.1 ≠ C ∧ a.2 - T ≤ codeExpiration) →
      verifyAll B st attempts =
        { st with log := st.log ++ attempts.flatMap (fun _ => mismatchEffects) } := by
  induction attempts with
  | nil => intro st _ _ _ _; simp [verifyAll]
  | cons a rest ih =>
    intro st hc ht hT hbad
    obtain ⟨codeField, now⟩ := a
    have ha := hbad (codeField, now) (List.mem_cons_self _ _)
    have hexp : codeExpired st.localStorage now = false := by
      rw [codeExpired_of _ _ _ (storedTimestamp_of _ _ _ ht hT)]
      simpa using ha.2
    have hne : st.localStorage "verificationCode" ≠ some (jsTrim codeField) := by
      rw [hc]
      intro h
      exact ha.1 (Option.some.inj h).symm
    have hstep := handleVerification_of_mismatch B st codeField now hexp hne
    simp only [verifyAll, hstep]
    rw [ih { st with log := st.log ++ mismatchEffects } hc ht hT
      (fun b hb => hbad b (List.mem_cons_of_mem _ hb))]
    simp [List.flatMap_cons, List.append_assoc]

/-- C4: with a stored code `C` and a timestamp `T`, a submission inside the
window whose trimmed code differs from `C` shows the message that the code
is invalid and leaves the whole storage as it was; after any run of such
submissions the storage is still the initial one, and a submission of `C`
inside the window then stores the session of the pending registration `P`
that was stored at the start. -/
theorem handleVerification_mismatch_retains (B : Builtins) (st : State) (C ttext : String)
    (T : Int) (attempts : List (String × Int))
    (hc : st.localStorage "verificationCode" = some C)
    (ht : st.localStorage "codeTimestamp" = some ttext) (hT : parseInt ttext = some T)
    (hbad : ∀ a ∈ attempts, jsTrim a.1 ≠ C ∧ a.2 - T ≤ codeExpiration) :
    (∀ (codeField : String) (now : Int), jsTrim codeField ≠ C → now - T ≤ codeExpiration →
      (handleVerification B st codeField now).localStorage = st.localStorage ∧
      (handleVerification B st codeField now).log = st.log ++
        [Effect.showMessage "Invalid verification code. Please try again." "error",
         Effect.clearCodeInput, Effect.focusCodeInput]) ∧
    (verifyAll B st attempts).localStorage = st.localStorage ∧
    (∀ (codeField : String) (now : Int) (ptext : String) (P : JVal),
      st.localStorage "pendingUser" = some ptext → ptext ≠ "" → B.jsonParse ptext = some P →
      jsTrim codeField = C → now - T ≤ codeExpiration →
      (handleVerification B (verifyAll B st attempts) codeField now).localStorage
          "warpeedSession" =
        some (B.jsonStringify (JVal.obj [("user", P), ("authenticated", JVal.bool true),
          ("loginTimestamp", JVal.num now), ("expiresAt", JVal.num (now + 86400000))]))) := by
  have hall := verifyAll_mismatches B C ttext T attempts st hc ht hT hbad
  refine ⟨?_, by rw [hall], ?_⟩
  · intro codeField now hne hwin
    have hexp : codeExpired st.localStorage now = false := by
      rw [codeExpired_of _ _ _ (storedTimestamp_of _ _ _ ht hT)]
      simpa using hwin
    have hne2 : st.localStorage "verificationCode" ≠ some (jsTrim codeField) := by
      rw [hc]
      intro h
      exact hne (Option.some.inj h).symm
    rw [handleVerification_of_mismatch B st codeField now hexp hne2]
    exact ⟨rfl, rfl⟩
  · intro codeField now ptext P hp hp0 hP hent hwin
    have hls : (verifyAll B st attempts).localStorage = st.localStorage := by rw [hall]
    have hexp : codeExpired (verifyAll B st attempts).localStorage now = false := by
      rw [hls, codeExpired_of _ _ _ (storedTimestamp_of _ _ _ ht hT)]
      simpa using hwin
    rw [handleVerification_of_match B _ codeField now P hexp (by rw [hls, hc, hent])
      (by simp [hls, hp, orElse, hp0, hP])]
    rw [grantAccess_session]
    simp [sessionOf, sessionDuration]

/-- C4 on the pending request of `demoUser`: two wrong codes, at times `2000`
and `3000`, then the code `123456` at time `4000`. -/
theorem handleVerification_mismatch_retains_witness :
    (verifyAll (demoBuiltins [demoUser]) demoPendingState
        [("000000", 2000), ("999999", 3000)]).localStorage = demoPendingState.localStorage ∧
    (handleVerification (demoBuiltins [demoUser])
        (verifyAll (demoBuiltins [demoUser]) demoPendingState
          [("000000", 2000), ("999999", 3000)]) "123456" 4000).localStorage "warpeedSession" =
      some ((demoBuiltins [demoUser]).jsonStringify
        (JVal.obj [("user", demoUser), ("authenticated", JVal.bool true),
          ("loginTimestamp", JVal.num 4000), ("expiresAt", JVal.num (4000 + 86400000))])) := by
  have h := handleVerification_mismatch_retains (demoBuiltins [demoUser]) demoPendingState
    "123456" "1000" 1000 [("000000", 2000), ("999999", 3000)]
    (by simp [demoPendingState, demoPendingStore, Store.setItem])
    (by simp [demoPendingState, demoPendingStore, Store.setItem])
    (by decide)
    (by
      intro a ha
      simp only [List.mem_cons, List.mem_singleton, List.not_mem_nil, or_false] at ha
      rcases ha with rfl | rfl <;> exact ⟨by decide, by decide⟩)
  refine ⟨h.2.1, h.2.2 "123456" 4000 (writeJson demoUser) demoUser ?_ ?_ ?_ ?_ ?_⟩
  · simp [demoPendingState, demoPendingStore, Store.setItem]
  · set_option maxRecDepth 100000 in decide
  · set_option maxRecDepth 100000 in simp [demoBuiltins, readKnown, List.find?]
  · decide
  · decide

/-- The effects a handler added to the log of the state it started from. -/
theorem handleVerification_log_cases (B : Builtins) (st : State) (codeField : String)
    (now : Int) :
    (codeExpired st.localStorage now = true ∧
      (handleVerification B st codeField now).log = st.log ++ expiredEffects ∧
      (handleVerification B st codeField now).localStorage = st.localStorage) ∨
    (codeExpired st.localStorage now = false ∧
      st.localStorage "verificationCode" ≠ some (jsTrim codeField) ∧
      (handleVerification B st codeField now).log = st.log ++ mismatchEffects ∧
      (handleVerification B st codeField now).localStorage = st.localStorage) ∨
    (codeExpired st.localStorage now = false ∧
      st.localStorage "verificationCode" = some (jsTrim codeField) ∧
      (handleVerification B st codeField now).log = st.log ++ [Effect.rejected] ∧
      (handleVerification B st codeField now).localStorage = st.localStorage) ∨
    (codeExpired st.localStorage now = false ∧
      st.localStorage "verificationCode" = some (jsTrim codeField) ∧
      ∃ u, handleVerification B st codeField now = grantAccess B st u now) := by
  cases hexp : codeExpired st.localStorage now with
  | true =>
    left
    rw [handleVerification_of_expired B st codeField now hexp]
    exact ⟨rfl, rfl, rfl⟩
  | false =>
    right
    by_cases hc : st.localStorage "verificationCode" = some (jsTrim codeField)
    · right
      cases hu : B.jsonParse (orElse (st.localStorage "pendingUser") "\x7b\x7d") with
      | none =>
        left
        rw [handleVerification_of_throw B st codeField now hexp hc hu]
        exact ⟨rfl, hc, rfl, rfl⟩
      | some u =>
        right
        exact ⟨rfl, hc, u, handleVerification_of_match B st codeField now u hexp hc hu⟩
    · left
      rw [handleVerification_of_mismatch B st codeField now hexp hc]
      exact ⟨rfl, hc, rfl, rfl⟩

/-- C10: whenever `handleVerification` writes a `warpeedSession` record, the
store held a `verificationCode` record equal to the trimmed code entered; and
when no `codeTimestamp` record is stored, at every time `now >
codeExpiration` the handler takes the expired branch, whatever the code: it
shows the expiry message, resets the form and writes no session. -/
theorem handleVerification_needs_issued_code (B : Builtins) (st : State) (codeField : String)
    (now : Int) :
    ((∃ value, Effect.setItem "warpeedSession" value ∈
        (handleVerification B st codeField now).log.drop st.log.length) →
      st.localStorage "verificationCode" = some (jsTrim codeField)) ∧
    (st.localStorage "codeTimestamp" = none → now > codeExpiration →
      handleVerification B st codeField now =
        { st with log := st.log ++
          [Effect.showMessage "Verification code has expired. Please request a new code."
             "error", Effect.resetForm] } ∧
      ∀ value, Effect.setItem "warpeedSession" value ∉
        (handleVerification B st codeField now).log.drop st.log.length) := by
  constructor
  · rintro ⟨value, hmem⟩
    rcases handleVerification_log_cases B st codeField now with
      ⟨_, hlog, _⟩ | ⟨_, _, hlog, _⟩ | ⟨_, _, hlog, _⟩ | ⟨_, hc, _⟩
    · rw [hlog, List.drop_left] at hmem
      simp [expiredEffects] at hmem
    · rw [hlog, List.drop_left] at hmem
      simp [mismatchEffects] at hmem
    · rw [hlog, List.drop_left] at hmem
      simp at hmem
    · exact hc
  · intro hts hnow
    have hexp : codeExpired st.localStorage now = true := by
      rw [codeExpired_of _ _ _ (storedTimestamp_absent _ hts)]
      simpa using hnow
    rw [handleVerification_of_expired B st codeField now hexp]
    refine ⟨rfl, fun value hmem => ?_⟩
    simp only [List.drop_left] at hmem
    simp [expiredEffects] at hmem

/-- C10 on two inputs: the pending request of `demoUser` with the stored code
entered in time (a session is written, and the code was in the store), and a
page with an empty storage at time `900001` (no session is written). -/
theorem handleVerification_needs_issued_code_witness :
    ((∃ value, Effect.setItem "warpeedSession" value ∈
        (handleVerification (demoBuiltins [demoUser]) demoPendingState "123456" 2000).log.drop
          demoPendingState.log.length) ∧
      demoPendingState.localStorage "verificationCode" = some (jsTrim "123456")) ∧
    (handleVerification (demoBuiltins [demoUser])
        { demoPendingState with localStorage := emptyStore } "123456" 900001).localStorage
      "warpeedSession" = none := by
  have hgrant : ∃ value, Effect.setItem "warpeedSession" value ∈
      (handleVerification (demoBuiltins [demoUser]) demoPendingState "123456" 2000).log.drop
        demoPendingState.log.length := by
    have hrun := handleVerification_of_match (demoBuiltins [demoUser]) demoPendingState
      "123456" 2000 demoUser (by decide)
      (by simp [demoPendingState, demoPendingStore, Store.setItem]; decide)
      (by set_option maxRecDepth 100000 in rfl)
    rw [hrun, grantAccess_log, List.drop_left]
    exact ⟨_, List.mem_cons_self _ _⟩
  refine ⟨⟨hgrant,
    (handleVerification_needs_issued_code (demoBuiltins [demoUser]) demoPendingState
      "123456" 2000).1 hgrant⟩, ?_⟩
  have h := (handleVerification_needs_issued_code (demoBuiltins [demoUser])
    { demoPendingState with localStorage := emptyStore } "123456" 900001).2 rfl (by decide)
  rw [h.1]
  rfl

/-! ## The request stage -/

theorem inClass_iff (c : Char) : inClass c = true ↔ (isJsSpace c = false ∧ c ≠ '@') := by
  simp [inClass]

/-- What `matchRun` accepts: a non-empty run of the class, then the
continuation. -/
theorem matchRun_iff (k : List Char → Bool) (cs : List Char) :
    matchRun k cs = true ↔
      ∃ run rest, cs = run ++ rest ∧ run ≠ [] ∧ (∀ c ∈ run, inClass c = true) ∧
        k rest = true := by
  induction cs with
  | nil =>
    simp only [matchRun, Bool.false_eq_true, false_iff]
    rintro ⟨run, rest, h, hne, _, _⟩
    cases run with
    | nil => exact hne rfl
    | cons a run => simp at h
  | cons c cs ih =>
    simp only [matchRun, Bool.and_eq_true, Bool.or_eq_true]
    constructor
    · rintro ⟨hc, hk | hrec⟩
      · exact ⟨[c], cs, rfl, by simp, by simpa using hc, hk⟩
      · obtain ⟨run, rest, h, _, hall, hk⟩ := ih.mp hrec
        refine ⟨c :: run, rest, by simp [h], by simp, ?_, hk⟩
        intro x hx
        rcases List.mem_cons.mp hx with rfl | hx
        · exact hc
        · exact hall x hx
    · rintro ⟨run, rest, h, hne, hall, hk⟩
      cases run with
      | nil => exact absurd rfl hne
      | cons a run =>
        simp only [List.cons_append, List.cons.injEq] at h
        obtain ⟨rfl, rfl⟩ := h
        refine ⟨hall c (List.mem_cons_self _ _), ?_⟩
        cases run with
        | nil => left; simpa using hk
        | cons b run =>
          right
          exact ih.mpr ⟨b :: run, rest, rfl, by simp,
            fun x hx => hall x (List.mem_cons_of_mem _ hx), hk⟩

/-- The pattern of `handleAccessRequest` accepts exactly the texts of the
shape `local@domain.tld`. -/
theorem emailRegexTest_iff (email : String) :
    emailRegexTest email = true ↔ HasEmailShape email := by
  unfold emailRegexTest emailRegex HasEmailShape
  simp only [matchAtoms]
  rw [matchRun_iff]
  constructor
  · rintro ⟨l, rest, h, hl, hlall, hk⟩
    cases rest with
    | nil => simp at hk
    | cons x rest =>
      simp only [Bool.and_eq_true, beq_iff_eq] at hk
      obtain ⟨rfl, hk⟩ := hk
      rw [matchRun_iff] at hk
      obtain ⟨d, rest2, h2, hd, hdall, hk2⟩ := hk
      cases rest2 with
      | nil => simp at hk2
      | cons y rest2 =>
        simp only [Bool.and_eq_true, beq_iff_eq] at hk2
        obtain ⟨rfl, hk2⟩ := hk2
        rw [matchRun_iff] at hk2
        obtain ⟨t, rest3, h3, ht, htall, hk3⟩ := hk2
        have hr3 : rest3 = [] := by simpa using hk3
        subst hr3
        refine ⟨l, d, t, ?_, hl, hd, ht, ?_, ?_, ?_⟩
        · rw [h, h2, h3]; simp
        · exact fun c hc => (inClass_iff c).mp (hlall c hc)
        · exact fun c hc => (inClass_iff c).mp (hdall c hc)
        · exact fun c hc => (inClass_iff c).mp (htall c hc)
  · rintro ⟨l, d, t, h, hl, hd, ht, hlall, hdall, htall⟩
    refine ⟨l, '@' :: (d ++ '.' :: t), h, hl, fun c hc => (inClass_iff c).mpr (hlall c hc), ?_⟩
    simp only [beq_self_eq_true, Bool.true_and]
    rw [matchRun_iff]
    refine ⟨d, '.' :: t, rfl, hd, fun c hc => (inClass_iff c).mpr (hdall c hc), ?_⟩
    simp only [beq_self_eq_true, Bool.true_and]
    rw [matchRun_iff]
    exact ⟨t, [], by simp, ht, fun c hc => (inClass_iff c).mpr (htall c hc), by simp⟩

/-- C6: when the trimmed name or the trimmed e-mail is empty, or the NDA box
is not ticked, or the trimmed e-mail has not the shape `local@domain.tld`,
`handleAccessRequest` only shows one of the two validation messages: the
storage and the module variables `currentUserData`, `generatedCode`,
`codeTimestamp` are unchanged, whatever the organization and the e-mail
(the master code and the creator address included). -/
theorem handleAccessRequest_validation (B : Builtins) (st : State) (form : AccessForm)
    (now : Int) (iso : String) (r : ℚ) (d : Delivery)
    (hbad : jsTrim form.fullName = "" ∨ jsTrim form.email = "" ∨ form.ndaAccept = false ∨
      ¬ HasEmailShape (jsTrim form.email)) :
    (∃ message,
      (message = "Please fill in all required fields and accept the NDA." ∨
        message = "Please enter a valid email address.") ∧
      handleAccessRequest B st form now iso r d =
        { st with log := st.log ++ [Effect.showMessage message "error"] }) ∧
    (handleAccessRequest B st form now iso r d).localStorage = st.localStorage ∧
    (handleAccessRequest B st form now iso r d).currentUserData = st.currentUserData ∧
    (handleAccessRequest B st form now iso r d).generatedCode = st.generatedCode ∧
    (handleAccessRequest B st form now iso r d).codeTimestamp = st.codeTimestamp := by
  by_cases h1 : jsTrim form.fullName = "" ∨ jsTrim form.email = "" ∨ form.ndaAccept = false
  · have hrun : handleAccessRequest B st form now iso r d =
        { st with log := st.log ++
          [Effect.showMessage "Please fill in all required fields and accept the NDA."
            "error"] } := by
      simp only [handleAccessRequest, if_pos h1, showMessage, State.emit]
    rw [hrun]
    exact ⟨⟨_, Or.inl rfl, rfl⟩, rfl, rfl, rfl, rfl⟩
  · have hshape : ¬ HasEmailShape (jsTrim form.email) := by
      rcases hbad with h | h | h | h
      · exact absurd (Or.inl h) h1
      · exact absurd (Or.inr (Or.inl h)) h1
      · exact absurd (Or.inr (Or.inr h)) h1
      · exact h
    have h2 : emailRegexTest (jsTrim form.email) = false := by
      cases hm : emailRegexTest (jsTrim form.email) with
      | false => rfl
      | true => exact absurd ((emailRegexTest_iff _).mp hm) hshape
    have hrun : handleAccessRequest B st form now iso r d =
        { st with log := st.log ++
          [Effect.showMessage "Please enter a valid email address." "error"] } := by
      simp only [handleAccessRequest, if_neg h1, h2, if_true, showMessage, State.emit]
    rw [hrun]
    exact ⟨⟨_, Or.inr rfl, rfl⟩, rfl, rfl, rfl, rfl⟩

/-- C6 on the pending request of `demoUser`: a form with a blank name, the
creator address and the master code. -/
theorem handleAccessRequest_validation_witness :
    (handleAccessRequest (demoBuiltins []) demoPendingState
        { fullName := "  ", email := "heinz@warpeed.space",
          organization := "WARPEED2025CREATOR", ndaAccept := true }
        5000 "2025-01-01T00:00:05.000Z" 0 Delivery.resolved).localStorage
      = demoPendingState.localStorage ∧
    (handleAccessRequest (demoBuiltins []) demoPendingState
        { fullName := "  ", email := "heinz@warpeed.space",
          organization := "WARPEED2025CREATOR", ndaAccept := true }
        5000 "2025-01-01T00:00:05.000Z" 0 Delivery.resolved).generatedCode = "123456" :=
  have h := handleAccessRequest_validation (demoBuiltins []) demoPendingState
    { fullName := "  ", email := "heinz@warpeed.space",
      organization := "WARPEED2025CREATOR", ndaAccept := true }
    5000 "2025-01-01T00:00:05.000Z" 0 Delivery.resolved (Or.inl (by decide))
  ⟨h.2.1, h.2.2.2.1⟩

/-- The bypass branch of `handleAccessRequest`. -/
theorem handleAccessRequest_of_bypass (B : Builtins) (st : State) (form : AccessForm)
    (now : Int) (iso : String) (r : ℚ) (d : Delivery)
    (hname : jsTrim form.fullName ≠ "") (hemail : jsTrim form.email ≠ "")
    (hnda : form.ndaAccept = true) (hshape : emailRegexTest (jsTrim form.email) = true)
    (hby : jsTrim form.organization = creatorMasterCode ∨ jsTrim form.email = creatorEmail) :
    handleAccessRequest B st form now iso r d =
      grantAccess B st (creatorData (jsTrim form.fullName) (jsTrim form.email) iso) now := by
  have h1 : ¬ (jsTrim form.fullName = "" ∨ jsTrim form.email = "" ∨ form.ndaAccept = false) := by
    simp [hname, hemail, hnda]
  simp only [handleAccessRequest, if_neg h1, hshape, if_pos hby]
  simp

/-- C5 (as stated) fails: on a fresh page the form carries a name, a valid
e-mail and the master code as organization, and the NDA box is not ticked.
No session is written and `isAuthenticated` answers false afterwards. -/
theorem handleAccessRequest_bypass_counterexample :
    jsTrim "WARPEED2025CREATOR" = creatorMasterCode ∧
    (handleAccessRequest (demoBuiltins []) freshState
        { fullName := "Ada", email := "ada@example.org",
          organization := "WARPEED2025CREATOR", ndaAccept := false }
        1000 "2025-01-01T00:00:01.000Z" 0 Delivery.resolved).localStorage "warpeedSession"
      = none ∧
    (isAuthenticated (demoBuiltins [])
        (handleAccessRequest (demoBuiltins []) freshState
          { fullName := "Ada", email := "ada@example.org",
            organization := "WARPEED2025CREATOR", ndaAccept := false }
          1000 "2025-01-01T00:00:01.000Z" 0 Delivery.resolved).localStorage 1000).2
      = false := by
  have hrun : handleAccessRequest (demoBuiltins []) freshState
      { fullName := "Ada", email := "ada@example.org",
        organization := "WARPEED2025CREATOR", ndaAccept := false }
      1000 "2025-01-01T00:00:01.000Z" 0 Delivery.resolved =
      { freshState with log := freshState.log ++
        [Effect.showMessage "Please fill in all required fields and accept the NDA."
          "error"] } := by
    simp [handleAccessRequest, showMessage, State.emit]
  rw [hrun]
  exact ⟨by decide, rfl, rfl⟩

/-- C5 (amended): when the form passes the validation (trimmed name and
e-mail not empty, NDA box ticked, e-mail of the shape `local@domain.tld`) and
the trimmed organization is the master code, `handleAccessRequest` issues no
code: it adds to the log exactly the effects of `grantAccess` (one write, of
`warpeedSession`; no write of a pending key, no mail), leaves no pending key
in the store, and stores a session for which `isAuthenticated` answers true at
every time up to `now + sessionDuration`, given that `JSON.parse` reads back
the non-empty text `JSON.stringify` wrote. -/
theorem handleAccessRequest_bypass (B : Builtins) (st : State) (form : AccessForm)
    (now : Int) (iso : String) (r : ℚ) (d : Delivery)
    (hname : jsTrim form.fullName ≠ "") (hemail : jsTrim form.email ≠ "")
    (hnda : form.ndaAccept = true) (hshape : HasEmailShape (jsTrim form.email))
    (horg : jsTrim form.organization = creatorMasterCode)
    (hback : B.jsonParse (B.jsonStringify
        (sessionOf (creatorData (jsTrim form.fullName) (jsTrim form.email) iso) now))
      = some (sessionOf (creatorData (jsTrim form.fullName) (jsTrim form.email) iso) now))
    (htext : B.jsonStringify
        (sessionOf (creatorData (jsTrim form.fullName) (jsTrim form.email) iso) now) ≠ "") :
    (handleAccessRequest B st form now iso r d).log = st.log ++
      [Effect.setItem "warpeedSession" (B.jsonStringify
          (sessionOf (creatorData (jsTrim form.fullName) (jsTrim form.email) iso) now)),
       Effect.logAccess (creatorData (jsTrim form.fullName) (jsTrim form.email) iso),
       Effect.removeItem "pendingUser",
       Effect.removeItem "verificationCode",
       Effect.removeItem "codeTimestamp",
       Effect.showMessage "Access granted! Redirecting..." "success",
       Effect.redirect "index.html"] ∧
    (handleAccessRequest B st form now iso r d).localStorage "pendingUser" = none ∧
    (handleAccessRequest B st form now iso r d).localStorage "verificationCode" = none ∧
    (handleAccessRequest B st form now iso r d).localStorage "codeTimestamp" = none ∧
    (handleAccessRequest B st form now iso r d).currentUserData = st.currentUserData ∧
    (handleAccessRequest B st form now iso r d).generatedCode = st.generatedCode ∧
    (handleAccessRequest B st form now iso r d).codeTimestamp = st.codeTimestamp ∧
    ∀ later, later ≤ now + sessionDuration →
      (isAuthenticated B (handleAccessRequest B st form now iso r d).localStorage later).2
        = true := by
  rw [handleAccessRequest_of_bypass B st form now iso r d hname hemail hnda
    ((emailRegexTest_iff _).mpr hshape) (Or.inl horg)]
  have hp := grantAccess_pending B st
    (creatorData (jsTrim form.fullName) (jsTrim form.email) iso) now
  refine ⟨grantAccess_log B st _ now, hp.1, hp.2.1, hp.2.2, rfl, rfl, rfl, fun later hl => ?_⟩
  rw [isAuthenticated_true_iff]
  refine ⟨_, _, JVal.num (now + sessionDuration), grantAccess_session B st _ now, htext, hback,
    ?_, ?_, ?_⟩
  · simp [sessionOf, JVal.prop, List.lookup]
  · rw [jsLt_num]
    simpa using hl
  · simp [sessionOf, JVal.prop, List.lookup]

/-- The amended C5 on a fresh page and the creator form at time `1000`: the
session is valid at once, and no pending key was left. -/
theorem handleAccessRequest_bypass_witness :
    (isAuthenticated (demoBuiltins [creatorSession])
        (handleAccessRequest (demoBuiltins [creatorSession]) freshState creatorForm 1000
          "2025-01-01T00:00:01.000Z" 0 Delivery.resolved).localStorage 1000).2 = true ∧
    (handleAccessRequest (demoBuiltins [creatorSession]) freshState creatorForm 1000
        "2025-01-01T00:00:01.000Z" 0 Delivery.resolved).localStorage "verificationCode"
      = none := by
  have h := handleAccessRequest_bypass (demoBuiltins [creatorSession]) freshState creatorForm
    1000 "2025-01-01T00:00:01.000Z" 0 Delivery.resolved
    (by decide) (by decide) rfl ((emailRegexTest_iff _).mp (by decide)) (by decide)
    (by set_option maxRecDepth 100000 in rfl)
    (by set_option maxRecDepth 100000 in decide)
  exact ⟨h.2.2.2.2.2.2.2 1000 (by decide), h.2.2.1⟩

/-! ## The expiry warning -/

theorem lookup_setField_same (fields : List (String × JVal)) (key : String) (x : JVal) :
    (setField fields key x).lookup key = some x := by
  induction fields with
  | nil => simp [setField, List.lookup]
  | cons p rest ih =>
    obtain ⟨k, y⟩ := p
    by_cases hk : k = key
    · subst hk
      simp [setField, List.lookup]
    · have hk2 : (key == k) = false := by
        simp only [beq_eq_false_iff_ne, ne_eq]
        exact fun h => hk h.symm
      simp [setField, hk, List.lookup, hk2, ih]

theorem lookup_setField_other (fields : List (String × JVal)) (key k2 : String) (x : JVal)
    (h : k2 ≠ key) : (setField fields key x).lookup k2 = fields.lookup k2 := by
  induction fields with
  | nil =>
    have hk2 : (k2 == key) = false := by simpa using h
    simp [setField, List.lookup, hk2]
  | cons p rest ih =>
    obtain ⟨k, y⟩ := p
    by_cases hk : k = key
    · subst hk
      have hk2 : (k2 == k) = false := by simpa using h
      simp [setField, List.lookup, hk2]
    · by_cases hk3 : k2 = k
      · subst hk3
        simp [setField, hk, List.lookup]
      · have hk4 : (k2 == k) = false := by simpa using hk3
        simp [setField, hk, List.lookup, hk4, ih]

/-- C9: for a stored session with numeric `expiresAt`, when `0 < expiresAt -
now < 5 min` and the flag `expiryWarningShown` is unset, `checkSessionExpiry`
with the prompt accepted stores the session again with `expiresAt` equal to
the clock after the dialog plus 24 h and every other property (`user`,
`authenticated`, `loginTimestamp`) as it was, touches no other key of
`localStorage` and leaves the flag removed; when the flag is set, or the
remaining time is `≤ 0` or `≥ 5 min`, `localStorage` is left as it was,
whatever the answer to the prompt. -/
theorem checkSessionExpiry_extends (B : Builtins) (ps : PageState) (now later : Int)
    (text : String) (fields : List (String × JVal)) (e : Int)
    (h1 : ps.localStorage "warpeedSession" = some text) (h2 : text ≠ "")
    (h3 : B.jsonParse text = some (JVal.obj fields))
    (h4 : fields.lookup "expiresAt" = some (JVal.num e)) :
    (0 < e - now → e - now < 5 * 60 * 1000 →
      truthy (ps.sessionStorage "expiryWarningShown") = false →
      ∃ extended : List (String × JVal),
        (checkSessionExpiry B ps now true later).localStorage "warpeedSession"
          = some (B.jsonStringify (JVal.obj extended)) ∧
        extended.lookup "expiresAt" = some (JVal.num (later + sessionDuration)) ∧
        (∀ k, k ≠ "expiresAt" → extended.lookup k = fields.lookup k) ∧
        (∀ k, k ≠ "warpeedSession" →
          (checkSessionExpiry B ps now true later).localStorage k = ps.localStorage k) ∧
        (checkSessionExpiry B ps now true later).sessionStorage "expiryWarningShown" = none) ∧
    (∀ accept, (truthy (ps.sessionStorage "expiryWarningShown") = true ∨ e - now ≤ 0 ∨
        5 * 60 * 1000 ≤ e - now) →
      (checkSessionExpiry B ps now accept later).localStorage = ps.localStorage) := by
  have hprop : (JVal.obj fields).prop "expiresAt" = some (JVal.num e) := by
    simp [JVal.prop, h4]
  constructor
  · intro hpos hlt hflag
    have hcond : e - now > 0 ∧ e - now < 5 * 60 * 1000 ∧
        truthy (ps.sessionStorage "expiryWarningShown") = false :=
      ⟨hpos, hlt, hflag⟩
    have hrun : checkSessionExpiry B ps now true later =
        { localStorage := ps.localStorage.setItem "warpeedSession"
            (B.jsonStringify (JVal.obj
              (setField fields "expiresAt" (JVal.num (later + 24 * 60 * 60 * 1000))))),
          sessionStorage := (ps.sessionStorage.setItem "expiryWarningShown" "true").removeItem
            "expiryWarningShown" } := by
      simp only [checkSessionExpiry, Store.getItem, h1, h2, if_false, h3, hprop, toNumber]
      rw [if_pos hcond]
      simp
    rw [hrun]
    refine ⟨_, setItem_same ps.localStorage "warpeedSession" _, ?_, ?_, ?_,
      removeItem_same (ps.sessionStorage.setItem "expiryWarningShown" "true")
        "expiryWarningShown"⟩
    · rw [lookup_setField_same]
      simp [sessionDuration]
    · exact fun k hk => lookup_setField_other fields "expiresAt" k _ hk
    · exact fun k hk => setItem_other ps.localStorage "warpeedSession" _ k hk
  · intro accept hno
    have hcond : ¬ (e - now > 0 ∧ e - now < 5 * 60 * 1000 ∧
        truthy (ps.sessionStorage "expiryWarningShown") = false) := by
      rintro ⟨hpos, hlt, hflag⟩
      rcases hno with h | h | h
      · rw [h] at hflag
        exact Bool.noConfusion hflag
      · omega
      · omega
    simp only [checkSessionExpiry, Store.getItem, h1, h2, if_false, h3, hprop, toNumber]
    rw [if_neg hcond]

/-- C9 on `demoPage` one second before the expiry of `demoSession`, the
prompt answered three seconds later. -/
theorem checkSessionExpiry_extends_witness :
    (∃ extended : List (String × JVal),
      (checkSessionExpiry (demoBuiltins [demoSession]) demoPage 86400000 true
          86403000).localStorage "warpeedSession"
        = some ((demoBuiltins [demoSession]).jsonStringify (JVal.obj extended)) ∧
      extended.lookup "expiresAt" = some (JVal.num (86403000 + sessionDuration)) ∧
      extended.lookup "user" = some demoUser) ∧
    (checkSessionExpiry (demoBuiltins [demoSession]) demoPage 86000000 true
        86403000).localStorage = demoPage.localStorage := by
  have h := checkSessionExpiry_extends (demoBuiltins [demoSession]) demoPage 86400000 86403000
    (writeJson demoSession)
    [("user", demoUser), ("authenticated", JVal.bool true),
      ("loginTimestamp", JVal.num 1000), ("expiresAt", JVal.num (1000 + sessionDuration))]
    86401000
    (by simp [demoPage, demoSessionStore, Store.setItem])
    (by set_option maxRecDepth 100000 in decide)
    (by set_option maxRecDepth 100000 in rfl)
    (by simp [List.lookup, sessionDuration])
  have h0 := checkSessionExpiry_extends (demoBuiltins [demoSession]) demoPage 86000000 86403000
    (writeJson demoSession)
    [("user", demoUser), ("authenticated", JVal.bool true),
      ("loginTimestamp", JVal.num 1000), ("expiresAt", JVal.num (1000 + sessionDuration))]
    86401000
    (by simp [demoPage, demoSessionStore, Store.setItem])
    (by set_option maxRecDepth 100000 in decide)
    (by set_option maxRecDepth 100000 in rfl)
    (by simp [List.lookup, sessionDuration])
  obtain ⟨extended, ha, hb, hc, _, _⟩ := h.1 (by decide) (by decide) (by decide)
  refine ⟨⟨extended, ha, hb, ?_⟩, h0.2 true (Or.inr (Or.inr (by decide)))⟩
  rw [hc "user" (by decide)]
  simp [List.lookup]

/-! ## The code generator -/

theorem floor_le_roundTiesEven (q : ℚ) : ⌊q⌋ ≤ roundTiesEven q := by
  unfold roundTiesEven
  simp only
  split_ifs <;> omega

theorem roundTiesEven_le_floor_succ (q : ℚ) : roundTiesEven q ≤ ⌊q⌋ + 1 := by
  unfold roundTiesEven
  simp only
  split_ifs <;> omega

theorem roundTiesEven_intCast (n : Int) : roundTiesEven (n : ℚ) = n := by
  unfold roundTiesEven
  simp

theorem roundTiesEven_mono {p q : ℚ} (h : p ≤ q) : roundTiesEven p ≤ roundTiesEven q := by
  rcases (Int.floor_mono h).lt_or_eq with hlt | heq
  · calc roundTiesEven p ≤ ⌊p⌋ + 1 := roundTiesEven_le_floor_succ p
      _ ≤ ⌊q⌋ := hlt
      _ ≤ roundTiesEven q := floor_le_roundTiesEven q
  · unfold roundTiesEven
    simp only
    rw [heq]
    have hd : p - (⌊q⌋ : ℚ) ≤ q - (⌊q⌋ : ℚ) := by linarith
    split_ifs <;> first | omega | (exfalso; linarith)

theorem ulp_pos (x : ℚ) : 0 < ulp x := by
  unfold ulp
  positivity

theorem log_two_eq {x : ℚ} {e : Int} (hx : 0 < x) (h1 : (2 : ℚ) ^ e ≤ x)
    (h2 : x < (2 : ℚ) ^ (e + 1)) : Int.log 2 x = e := by
  have ha : e ≤ Int.log 2 x :=
    (Int.zpow_le_iff_le_log (by norm_num : 1 < 2) hx).mp (by exact_mod_cast h1)
  have hb : Int.log 2 x < e + 1 :=
    (Int.lt_zpow_iff_log_lt (by norm_num : 1 < 2) hx).mp (by exact_mod_cast h2)
  omega

theorem two_zpow_log_le {x : ℚ} (hx : 0 < x) : (2 : ℚ) ^ Int.log 2 x ≤ x := by
  have h := Int.zpow_log_le_self (by norm_num : 1 < 2) hx
  exact_mod_cast h

theorem lt_two_zpow_log_succ (x : ℚ) : x < (2 : ℚ) ^ (Int.log 2 x + 1) := by
  have h := Int.lt_zpow_succ_log_self (by norm_num : 1 < 2) x
  exact_mod_cast h

theorem toDouble_nonneg (x : ℚ) : 0 ≤ toDouble x := by
  unfold toDouble
  split_ifs with h
  · exact le_refl 0
  · push_neg at h
    have hq : 0 ≤ x / ulp x := div_nonneg h.le (ulp_pos x).le
    have hf : (0 : Int) ≤ roundTiesEven (x / ulp x) :=
      le_trans (Int.floor_nonneg.mpr hq) (floor_le_roundTiesEven _)
    exact mul_nonneg (by exact_mod_cast hf) (ulp_pos x).le

theorem two_pow_53_mul (e : Int) : ((2 ^ 53 : Int) : ℚ) * 2 ^ (e - 52) = 2 ^ (e + 1) := by
  have h : ((2 ^ 53 : Int) : ℚ) = (2 : ℚ) ^ (53 : Int) := by norm_num
  rw [h, ← zpow_add₀ (by norm_num : (2 : ℚ) ≠ 0)]
  congr 1
  ring

theorem two_pow_52_mul (e : Int) : ((2 ^ 52 : Int) : ℚ) * 2 ^ (e - 52) = 2 ^ e := by
  have h : ((2 ^ 52 : Int) : ℚ) = (2 : ℚ) ^ (52 : Int) := by norm_num
  rw [h, ← zpow_add₀ (by norm_num : (2 : ℚ) ≠ 0)]
  congr 1
  ring

theorem toDouble_of_pos {x : ℚ} (hx : 0 < x) (e : Int) (he : e = max (Int.log 2 x) (-1022)) :
    toDouble x = ((roundTiesEven (x / 2 ^ (e - 52)) : Int) : ℚ) * 2 ^ (e - 52) := by
  simp only [toDouble, not_le.mpr hx, if_false, ulp, he]

/-- Below the top of its binade, a positive rational rounds to at most that
power of two. -/
theorem toDouble_le_top {x : ℚ} (hx : 0 < x) (e : Int) (he : e = max (Int.log 2 x) (-1022)) :
    toDouble x ≤ 2 ^ (e + 1) := by
  rw [toDouble_of_pos hx e he]
  have hpos : (0 : ℚ) < 2 ^ (e - 52) := by positivity
  have hxlt : x < (2 : ℚ) ^ (e + 1) :=
    lt_of_lt_of_le (lt_two_zpow_log_succ x)
      (zpow_le_zpow_right₀ (by norm_num)
        (by have := le_max_left (Int.log 2 x) (-1022); omega))
  have hq : x / 2 ^ (e - 52) ≤ ((2 ^ 53 : Int) : ℚ) := by
    rw [div_le_iff₀ hpos, two_pow_53_mul]
    exact hxlt.le
  have hr := roundTiesEven_mono hq
  rw [roundTiesEven_intCast] at hr
  have hr2 : ((roundTiesEven (x / 2 ^ (e - 52)) : Int) : ℚ) ≤ ((2 ^ 53 : Int) : ℚ) := by
    exact_mod_cast hr
  calc ((roundTiesEven (x / 2 ^ (e - 52)) : Int) : ℚ) * 2 ^ (e - 52)
      ≤ ((2 ^ 53 : Int) : ℚ) * 2 ^ (e - 52) := mul_le_mul_of_nonneg_right hr2 hpos.le
    _ = 2 ^ (e + 1) := two_pow_53_mul e

/-- A positive rational rounds to at least the bottom of its binade. -/
theorem bottom_le_toDouble {x : ℚ} (hx : 0 < x) (e : Int) (he : e = Int.log 2 x)
    (hn : -1022 ≤ e) : 2 ^ e ≤ toDouble x := by
  have he2 : e = max (Int.log 2 x) (-1022) := by
    rw [← he]
    exact (max_eq_left hn).symm
  rw [toDouble_of_pos hx e he2]
  have hpos : (0 : ℚ) < 2 ^ (e - 52) := by positivity
  have hxge : (2 : ℚ) ^ e ≤ x := by
    rw [he]
    exact two_zpow_log_le hx
  have hq : ((2 ^ 52 : Int) : ℚ) ≤ x / 2 ^ (e - 52) := by
    rw [le_div_iff₀ hpos, two_pow_52_mul]
    exact hxge
  have hr := roundTiesEven_mono hq
  rw [roundTiesEven_intCast] at hr
  have hr2 : ((2 ^ 52 : Int) : ℚ) ≤ ((roundTiesEven (x / 2 ^ (e - 52)) : Int) : ℚ) := by
    exact_mod_cast hr
  calc (2 : ℚ) ^ e = ((2 ^ 52 : Int) : ℚ) * 2 ^ (e - 52) := (two_pow_52_mul e).symm
    _ ≤ ((roundTiesEven (x / 2 ^ (e - 52)) : Int) : ℚ) * 2 ^ (e - 52) :=
        mul_le_mul_of_nonneg_right hr2 hpos.le

/-- Rounding to the nearest double is monotone. -/
theorem toDouble_mono {x y : ℚ} (h : x ≤ y) : toDouble x ≤ toDouble y := by
  by_cases hx : x ≤ 0
  · have : toDouble x = 0 := by simp [toDouble, hx]
    rw [this]
    exact toDouble_nonneg y
  · push_neg at hx
    have hy : 0 < y := lt_of_lt_of_le hx h
    have hlog : Int.log 2 x ≤ Int.log 2 y := Int.log_mono_right hx h
    rcases (max_le_max hlog (le_refl (-1022 : Int))).lt_or_eq with hlt | heq
    · have hy2 : max (Int.log 2 y) (-1022) = Int.log 2 y := by
        rcases le_total (Int.log 2 y) (-1022) with hc | hc
        · exfalso
          rw [max_eq_right hc] at hlt
          exact absurd hlt (not_lt.mpr (le_max_right _ _))
        · exact max_eq_left hc
      have hn : -1022 ≤ Int.log 2 y := by
        rw [← hy2]
        exact le_max_right _ _
      calc toDouble x ≤ 2 ^ (max (Int.log 2 x) (-1022) + 1) := toDouble_le_top hx _ rfl
        _ ≤ (2 : ℚ) ^ Int.log 2 y :=
            zpow_le_zpow_right₀ (by norm_num) (by rw [hy2] at hlt; omega)
        _ ≤ toDouble y := bottom_le_toDouble hy _ rfl hn
    · rw [toDouble_of_pos hx _ rfl, toDouble_of_pos hy _ rfl, heq]
      have hpos : (0 : ℚ) < 2 ^ (max (Int.log 2 y) (-1022) - 52) := by positivity
      have hq : x / 2 ^ (max (Int.log 2 y) (-1022) - 52)
          ≤ y / 2 ^ (max (Int.log 2 y) (-1022) - 52) :=
        div_le_div_of_nonneg_right h hpos.le
      have hr := roundTiesEven_mono hq
      exact mul_le_mul_of_nonneg_right (by exact_mod_cast hr) hpos.le

theorem roundTiesEven_of_lt_half {q : ℚ} {f : Int} (h1 : (f : ℚ) ≤ q) (h2 : q < f + 1 / 2) :
    roundTiesEven q = f := by
  have hf : ⌊q⌋ = f := by
    rw [Int.floor_eq_iff]
    exact ⟨h1, by linarith⟩
  unfold roundTiesEven
  simp only [hf]
  rw [if_pos (by linarith)]

/-- A value of the grid of its binade is a double: rounding returns it. -/
theorem toDouble_of_grid {x : ℚ} (e k : Int) (hx : 0 < x) (h1 : (2 : ℚ) ^ e ≤ x)
    (h2 : x < (2 : ℚ) ^ (e + 1)) (hn : -1022 ≤ e) (hk : x = (k : ℚ) * 2 ^ (e - 52)) :
    toDouble x = x := by
  have hlog := log_two_eq hx h1 h2
  have he : e = max (Int.log 2 x) (-1022) := by
    rw [hlog]
    exact (max_eq_left hn).symm
  rw [toDouble_of_pos hx e he]
  have hpos : (0 : ℚ) < 2 ^ (e - 52) := by positivity
  have hq : x / 2 ^ (e - 52) = (k : ℚ) := by
    rw [hk]
    field_simp
  rw [hq, roundTiesEven_intCast, ← hk]

theorem toDouble_zero : toDouble 0 = 0 := by
  simp [toDouble]

theorem toDouble_100000 : toDouble 100000 = 100000 := by
  apply toDouble_of_grid 16 (100000 * 2 ^ 36) <;> norm_num

theorem toDouble_below_million :
    toDouble (1000000 - 1 / 2 ^ 33) = 1000000 - 1 / 2 ^ 33 := by
  apply toDouble_of_grid 19 (1000000 * 2 ^ 33 - 1) <;> norm_num

theorem toDouble_top_product :
    toDouble ((1 - 1 / 2 ^ 53) * 900000) = 900000 - 1 / 2 ^ 33 := by
  have hx : (0 : ℚ) < (1 - 1 / 2 ^ 53) * 900000 := by norm_num
  have hlog : Int.log 2 ((1 - 1 / 2 ^ 53) * 900000 : ℚ) = 19 :=
    log_two_eq hx (by norm_num) (by norm_num)
  rw [toDouble_of_pos hx 19 (by rw [hlog]; rfl)]
  have hr : roundTiesEven ((1 - 1 / 2 ^ 53) * 900000 / 2 ^ ((19 : Int) - 52))
      = 900000 * 2 ^ 33 - 1 := by
    apply roundTiesEven_of_lt_half <;> norm_num
  rw [hr]
  norm_num

/-- A double in `[0, 1)` is at most `1 - 2 ^ (-53)`. -/
theorem double_below_one {r : ℚ} (h1 : r < 1) (hd : toDouble r = r) :
    r ≤ 1 - 1 / 2 ^ 53 := by
  by_cases h0 : r ≤ 0
  · exact le_trans h0 (by norm_num)
  · push_neg at h0
    have hlog : Int.log 2 r < 0 :=
      (Int.lt_zpow_iff_log_lt (by norm_num : 1 < 2) h0).mp (by simpa using h1)
    rcases le_or_lt (max (Int.log 2 r) (-1022)) (-2) with hsmall | hbig
    · have hlt : r < (2 : ℚ) ^ ((-2 : Int) + 1) :=
        lt_of_lt_of_le (lt_two_zpow_log_succ r)
          (zpow_le_zpow_right₀ (by norm_num)
            (by have := le_max_left (Int.log 2 r) (-1022); omega))
      have : (2 : ℚ) ^ ((-2 : Int) + 1) = 1 / 2 := by norm_num
      rw [this] at hlt
      exact le_trans hlt.le (by norm_num)
    · have he : (-1 : Int) = max (Int.log 2 r) (-1022) := by
        have hle : max (Int.log 2 r) (-1022) ≤ -1 := max_le (by omega) (by norm_num)
        omega
      have hval := toDouble_of_pos h0 (-1) he
      rw [hd] at hval
      have hu : (2 : ℚ) ^ ((-1 : Int) - 52) = 1 / 2 ^ 53 := by norm_num
      rw [hu] at hval
      set k := roundTiesEven (r / (1 / 2 ^ 53)) with hk
      have hklt : (k : ℚ) < ((2 ^ 53 : Int) : ℚ) := by
        have : (k : ℚ) * (1 / 2 ^ 53) < 1 := by rw [← hval]; exact h1
        have h2 : (k : ℚ) < 2 ^ 53 := by
          rw [mul_one_div, div_lt_iff₀ (by positivity)] at this
          simpa using this
        exact_mod_cast h2
      have hkle : k ≤ 2 ^ 53 - 1 := by
        have : k < 2 ^ 53 := by exact_mod_cast hklt
        omega
      have hkq : (k : ℚ) ≤ 2 ^ 53 - 1 := by exact_mod_cast hkle
      rw [hval]
      calc (k : ℚ) * (1 / 2 ^ 53) ≤ (2 ^ 53 - 1) * (1 / 2 ^ 53) :=
            mul_le_mul_of_nonneg_right hkq (by positivity)
        _ = 1 - 1 / 2 ^ 53 := by norm_num

/-- The number whose digits `generateVerificationCode` returns lies between
`100000` and `999999`. -/
theorem code_value_bounds {r : ℚ} (h1 : r ≤ 1 - 1 / 2 ^ 53) :
    100000 ≤ ⌊toDouble (100000 + toDouble (r * 900000))⌋ ∧
      ⌊toDouble (100000 + toDouble (r * 900000))⌋ ≤ 999999 := by
  have ha : 0 ≤ toDouble (r * 900000) := toDouble_nonneg _
  have hb : toDouble (r * 900000) ≤ 900000 - 1 / 2 ^ 33 := by
    rw [← toDouble_top_product]
    exact toDouble_mono (mul_le_mul_of_nonneg_right h1 (by norm_num))
  have hc : (100000 : ℚ) ≤ toDouble (100000 + toDouble (r * 900000)) := by
    calc (100000 : ℚ) = toDouble 100000 := toDouble_100000.symm
      _ ≤ _ := toDouble_mono (by linarith)
  have hd : toDouble (100000 + toDouble (r * 900000)) ≤ 1000000 - 1 / 2 ^ 33 := by
    rw [← toDouble_below_million]
    exact toDouble_mono (by linarith)
  constructor
  · exact Int.le_floor.mpr (by exact_mod_cast hc)
  · have : ⌊toDouble (100000 + toDouble (r * 900000))⌋ < 1000000 := by
      rw [Int.floor_lt]
      have : (1000000 - 1 / 2 ^ 33 : ℚ) < 1000000 := by norm_num
      exact_mod_cast lt_of_le_of_lt hd this
    omega

theorem digitChar_isDigit (d : Nat) (h : d < 10) : (Nat.digitChar d).isDigit = true := by
  interval_cases d <;> rfl

theorem digitChar_ne_zero (d : Nat) (h1 : 0 < d) (h : d < 10) : Nat.digitChar d ≠ '0' := by
  interval_cases d <;> decide

theorem toDigitsCore_six (f n : Nat) (h1 : 100000 ≤ n) (h2 : n ≤ 999999) :
    Nat.toDigitsCore 10 (f + 6) n [] =
      [Nat.digitChar (n / 100000), Nat.digitChar (n / 10000 % 10),
        Nat.digitChar (n / 1000 % 10), Nat.digitChar (n / 100 % 10),
        Nat.digitChar (n / 10 % 10), Nat.digitChar (n % 10)] := by
  have e1 : n / 10 ≠ 0 := by omega
  have e2 : n / 10 / 10 ≠ 0 := by omega
  have e3 : n / 10 / 10 / 10 ≠ 0 := by omega
  have e4 : n / 10 / 10 / 10 / 10 ≠ 0 := by omega
  have e5 : n / 10 / 10 / 10 / 10 / 10 ≠ 0 := by omega
  have e6 : n / 10 / 10 / 10 / 10 / 10 / 10 = 0 := by omega
  have f1 : n / 10 / 10 / 10 / 10 / 10 % 10 = n / 100000 := by omega
  have f2 : n / 10 / 10 / 10 / 10 % 10 = n / 10000 % 10 := by omega
  have f3 : n / 10 / 10 / 10 % 10 = n / 1000 % 10 := by omega
  have f4 : n / 10 / 10 % 10 = n / 100 % 10 := by omega
  simp only [Nat.toDigitsCore, e1, e2, e3, e4, e5, e6, if_true, if_false, f1, f2, f3, f4]

/-- The decimal text of a number between `100000` and `999999`. -/
theorem repr_six_digits (n : Nat) (h1 : 100000 ≤ n) (h2 : n ≤ 999999) :
    toString n = String.mk [Nat.digitChar (n / 100000), Nat.digitChar (n / 10000 % 10),
      Nat.digitChar (n / 1000 % 10), Nat.digitChar (n / 100 % 10),
      Nat.digitChar (n / 10 % 10), Nat.digitChar (n % 10)] := by
  show (Nat.toDigits 10 n).asString = _
  have hf : n + 1 = (n - 5) + 6 := by omega
  unfold Nat.toDigits
  rw [hf, toDigitsCore_six _ n h1 h2]
  rfl

theorem toString_natCast (n : Nat) : toString ((n : Nat) : Int) = toString n := rfl

theorem toString_int_six_digits (n : Nat) (h1 : 100000 ≤ n) (h2 : n ≤ 999999) :
    toString ((n : Nat) : Int) = String.mk [Nat.digitChar (n / 100000),
      Nat.digitChar (n / 10000 % 10), Nat.digitChar (n / 1000 % 10),
      Nat.digitChar (n / 100 % 10), Nat.digitChar (n / 10 % 10), Nat.digitChar (n % 10)] := by
  rw [toString_natCast, repr_six_digits n h1 h2]

theorem generateVerificationCode_def (r : ℚ) :
    generateVerificationCode r = toString ⌊toDouble (100000 + toDouble (r * 900000))⌋ :=
  generateVerificationCode.eq_1 r

theorem code_floor_zero :
    ⌊toDouble (100000 + toDouble (0 * 900000))⌋ = ((100000 : Nat) : Int) := by
  have hz : (0 : ℚ) * 900000 = 0 := by norm_num
  have hs : (100000 : ℚ) + 0 = 100000 := by norm_num
  rw [hz, toDouble_zero, hs, toDouble_100000, Int.floor_eq_iff]
  norm_num

theorem code_floor_top :
    ⌊toDouble (100000 + toDouble ((1 - 1 / 2 ^ 53) * 900000))⌋ = ((999999 : Nat) : Int) := by
  have hs : (100000 : ℚ) + (900000 - 1 / 2 ^ 33) = 1000000 - 1 / 2 ^ 33 := by norm_num
  rw [toDouble_top_product, hs, toDouble_below_million, Int.floor_eq_iff]
  norm_num

theorem code_floor_half :
    ⌊toDouble (100000 + toDouble (1 / 2 * 900000))⌋ = ((550000 : Nat) : Int) := by
  have h1 : (1 / 2 : ℚ) * 900000 = 450000 := by norm_num
  have h2 : toDouble 450000 = 450000 := by
    apply toDouble_of_grid 18 (450000 * 2 ^ 34) <;> norm_num
  have h3 : (100000 : ℚ) + 450000 = 550000 := by norm_num
  have h4 : toDouble 550000 = 550000 := by
    apply toDouble_of_grid 19 (550000 * 2 ^ 33) <;> norm_num
  rw [h1, h2, h3, h4, Int.floor_eq_iff]
  norm_num

/-- C7: for every double `r` with `0 ≤ r < 1`, `generateVerificationCode`
returns the decimal text of the floor of `100000 + r * 900000` (each
operation rounded to the nearest double), a number `n` with `100000 ≤ n ≤
999999`: six decimal digits, the first not `0`. The bound `100000` is
attained at `r = 0` and the bound `999999` at `r = 1 - 2 ^ (-53)`, the
largest double below `1`. -/
theorem generateVerificationCode_six_digits :
    (∀ r : ℚ, 0 ≤ r → r < 1 → toDouble r = r →
      ∃ n : Nat, 100000 ≤ n ∧ n ≤ 999999 ∧
        ⌊toDouble (100000 + toDouble (r * 900000))⌋ = (n : Int) ∧
        generateVerificationCode r = toString n ∧
        (generateVerificationCode r).length = 6 ∧
        (∀ c ∈ (generateVerificationCode r).toList, c.isDigit = true) ∧
        (generateVerificationCode r).toList.head? ≠ some '0') ∧
    (toDouble 0 = 0 ∧ generateVerificationCode 0 = "100000") ∧
    (toDouble (1 - 1 / 2 ^ 53) = 1 - 1 / 2 ^ 53 ∧ (1 - 1 / 2 ^ 53 : ℚ) < 1 ∧
      generateVerificationCode (1 - 1 / 2 ^ 53) = "999999") := by
  refine ⟨?_, ⟨toDouble_zero, ?_⟩, ?_, by norm_num, ?_⟩
  · intro r _ h1 hd
    obtain ⟨hlo, hhi⟩ := code_value_bounds (double_below_one h1 hd)
    obtain ⟨n, hn⟩ : ∃ n : Nat, ⌊toDouble (100000 + toDouble (r * 900000))⌋ = (n : Int) :=
      ⟨(⌊toDouble (100000 + toDouble (r * 900000))⌋).toNat, by omega⟩
    have h1n : 100000 ≤ n := by omega
    have h2n : n ≤ 999999 := by omega
    have hcode : generateVerificationCode r = toString n := by
      rw [generateVerificationCode_def, hn, toString_natCast]
    refine ⟨n, h1n, h2n, hn, hcode, ?_, ?_, ?_⟩
    · rw [hcode, repr_six_digits n h1n h2n]
      rfl
    · rw [hcode, repr_six_digits n h1n h2n]
      intro c hc
      change c ∈ [Nat.digitChar (n / 100000), Nat.digitChar (n / 10000 % 10),
        Nat.digitChar (n / 1000 % 10), Nat.digitChar (n / 100 % 10),
        Nat.digitChar (n / 10 % 10), Nat.digitChar (n % 10)] at hc
      simp only [List.mem_cons, List.mem_singleton, List.not_mem_nil, or_false] at hc
      rcases hc with rfl | rfl | rfl | rfl | rfl | rfl
      · exact digitChar_isDigit (n / 100000) (by omega)
      · exact digitChar_isDigit (n / 10000 % 10) (by omega)
      · exact digitChar_isDigit (n / 1000 % 10) (by omega)
      · exact digitChar_isDigit (n / 100 % 10) (by omega)
      · exact digitChar_isDigit (n / 10 % 10) (by omega)
      · exact digitChar_isDigit (n % 10) (by omega)
    · rw [hcode, repr_six_digits n h1n h2n]
      change some (Nat.digitChar (n / 100000)) ≠ some '0'
      intro h
      exact digitChar_ne_zero (n / 100000) (by omega) (by omega) (Option.some.inj h)
  · exact (generateVerificationCode_def 0).trans ((congrArg toString code_floor_zero).trans
      ((toString_int_six_digits 100000 (by norm_num) (by norm_num)).trans (by decide)))
  · apply toDouble_of_grid (-1) (2 ^ 53 - 1) <;> norm_num
  · exact (generateVerificationCode_def _).trans ((congrArg toString code_floor_top).trans
      ((toString_int_six_digits 999999 (by norm_num) (by norm_num)).trans (by decide)))

/-- C7 at `r = 1 / 2`: the code is `550000`. -/
theorem generateVerificationCode_six_digits_witness :
    generateVerificationCode (1 / 2) = "550000" ∧
      (generateVerificationCode (1 / 2)).length = 6 := by
  have hd : toDouble (1 / 2) = 1 / 2 := by
    apply toDouble_of_grid (-1) (2 ^ 52) <;> norm_num
  obtain ⟨n, _, _, _, _, hlen, _, _⟩ :=
    generateVerificationCode_six_digits.1 (1 / 2) (by norm_num) (by norm_num) hd
  exact ⟨(generateVerificationCode_def _).trans ((congrArg toString code_floor_half).trans
      ((toString_int_six_digits 550000 (by norm_num) (by norm_num)).trans (by decide))), hlen⟩

end Warpeed
